import Mathlib

/-!
# Verification of the SkArenaAlloc bump-pointer arena

Shallow embedding of `src/core/SkArenaAlloc.cpp` (64-bit data model:
`sizeof(FooterAction*) = sizeof(char*) = sizeof(ptrdiff_t) = 8`, so
`sizeof(Footer) = 9` — the footer is an unaligned action pointer plus one
padding byte, exactly as `installFooter` writes it).

Memory is a flat address space `Nat → Cell`; address `0` plays the role of
`nullptr`.  A `Cell` records the typed value whose first byte was stored at
the address; the remaining bytes of a multi-byte store are marked `covered`,
so that a read landing in the middle of (or across) a store does not decode.
The action pointers stored in footers are represented by the closed variant
`FooterActionV` (`end_chain`, `SkArenaAlloc::SkipPod`, `SkArenaAlloc::NextBlock`,
and the destructor lambda installed by `make<T>`, which captures the object
size and is tagged here with the allocation id it destroys).

`operator new[]` is modelled by a deterministic bump oracle: the arena state
carries `nextBase`, the next fresh heap address, and each new block is carved
from it.  `delete[]` is modelled by recording the freed base address.
-/

/-- The closed set of footer actions of the source: `end_chain`,
`SkArenaAlloc::SkipPod`, `SkArenaAlloc::NextBlock`, and the per-type
destructor lambda installed by `make<T>` (tagged with the destroyed
object's size and the allocation id used by the model's destructor log). -/
inductive FooterActionV where
  | endChain : FooterActionV
  | skipPod : FooterActionV
  | nextBlock : FooterActionV
  | dtorObj (size allocId : Nat) : FooterActionV
  deriving DecidableEq

/-- Typed content of a memory cell: what the first byte of a store holds. -/
inductive Cell where
  | uninit : Cell
  | covered (src : Nat) : Cell
  | actionC (a : FooterActionV) : Cell
  | byteC (v : Nat) : Cell
  | u32C (v : Nat) : Cell
  | ptrC (p : Nat) : Cell
  deriving DecidableEq

/-- Store a `k`-byte value at address `o`: the value sits at `o`, the
remaining `k - 1` cells are marked as covered by the store at `o`. -/
def writeCell (m : Nat → Cell) (o k : Nat) (v : Cell) : Nat → Cell :=
  fun j => if j = o then v else if o < j ∧ j < o + k then Cell.covered o else m j

/-- Maximum value of the allocator's 32-bit size type (`maxSize` in
`ensureSpace`). -/
def maxSize : Nat := 4294967295

/-- Truncation to `uint32_t` (`ToU32` / `to_uint32_t` in the source; their
range `assert` is debug-only, release builds truncate). -/
def ToU32 (v : Nat) : Nat := v % 4294967296

/-- Arena state: the fields `fDtorCursor`, `fCursor`, `fEnd`,
`fNextHeapAlloc`, `fYetNextHeapAlloc` of class `SkArenaAlloc`, plus the
modelled flat memory and the bookkeeping of the heap oracle: `nextBase` is
the next fresh address `new char[]` returns, `heapBlocks` the list of
`(base, size)` blocks obtained from it, in creation order. -/
structure SkArenaAlloc where
  mem : Nat → Cell
  fDtorCursor : Nat
  fCursor : Nat
  fEnd : Nat
  fNextHeapAlloc : Nat
  fYetNextHeapAlloc : Nat
  nextBase : Nat
  heapBlocks : List (Nat × Nat)

/-- Writes an action pointer at the cursor (`installRaw(action)`,
8 bytes on the 64-bit model). -/
def installRawAction (a : SkArenaAlloc) (v : FooterActionV) : SkArenaAlloc :=
  { a with mem := writeCell a.mem a.fCursor 8 (Cell.actionC v), fCursor := a.fCursor + 8 }

/-- Writes one byte at the cursor (`installRaw((uint8_t)padding)`; the
`uint8_t` cast truncates mod 256). -/
def installRawByte (a : SkArenaAlloc) (v : Nat) : SkArenaAlloc :=
  { a with mem := writeCell a.mem a.fCursor 1 (Cell.byteC (v % 256)), fCursor := a.fCursor + 1 }

/-- Writes a `uint32_t` at the cursor (`installRaw(ToU32 ...)`, 4 bytes). -/
def installRawU32 (a : SkArenaAlloc) (v : Nat) : SkArenaAlloc :=
  { a with mem := writeCell a.mem a.fCursor 4 (Cell.u32C (v % 4294967296)),
           fCursor := a.fCursor + 4 }

/-- Writes a `char*` at the cursor (`installRaw(previousDtor)`, 8 bytes). -/
def installRawPtr (a : SkArenaAlloc) (v : Nat) : SkArenaAlloc :=
  { a with mem := writeCell a.mem a.fCursor 8 (Cell.ptrC v), fCursor := a.fCursor + 8 }

/-- Source `SkArenaAlloc::installFooter`: write the action, then the padding
byte, then advance `fDtorCursor` to the cursor. -/
def installFooter (a : SkArenaAlloc) (v : FooterActionV) (padding : Nat) : SkArenaAlloc :=
  let a1 := installRawByte (installRawAction a v) padding
  { a1 with fDtorCursor := a1.fCursor }

/-- Source `first_allocated_block`. -/
def first_allocated_block (blockSize firstHeapAllocation : Nat) : Nat :=
  if firstHeapAllocation > 0 then firstHeapAllocation
  else if blockSize > 0 then blockSize else 1024

/-- Source constructor `SkArenaAlloc::SkArenaAlloc(block, size,
firstHeapAllocation)`, run over an ambient memory `mem0` (the caller-supplied
buffer is whatever `mem0` holds) with heap oracle start `nextBase0`.
`block = 0` models a null block pointer.  If `size < sizeof(Footer) = 9` all
three cursors are nulled and nothing is written; otherwise, when the cursor
is non-null, the `end_chain` sentinel footer is installed at the very start
of the block. -/
def mkSkArenaAlloc (mem0 : Nat → Cell) (block size firstHeapAllocation nextBase0 : Nat) :
    SkArenaAlloc :=
  let f := first_allocated_block (ToU32 size) (ToU32 firstHeapAllocation)
  let a : SkArenaAlloc :=
    { mem := mem0, fDtorCursor := block, fCursor := block, fEnd := block + ToU32 size,
      fNextHeapAlloc := f, fYetNextHeapAlloc := f,
      nextBase := nextBase0, heapBlocks := [] }
  let a := if size < 9 then { a with fEnd := 0, fCursor := 0, fDtorCursor := 0 } else a
  if a.fCursor ≠ 0 then installFooter a FooterActionV.endChain 0 else a

/-- Round `v` up by the power-of-two mask `mask` (source
`(allocationSize + mask) & ~mask`; for `mask + 1` a power of two and the
guarded sum below `2^32`, clearing the low bits is subtracting the
remainder). -/
def roundUpMask (v mask : Nat) : Nat := (v + mask) - (v + mask) % (mask + 1)

/-- Source `SkArenaAlloc::ensureSpace`.  `none` models a failed
`AssertRelease`, the release-mode fatal assertion (modelled from the spec:
`AssertRelease` is declared in the arena header, which is not among the
given sources; the spec states any overflowing size computation "is a fatal,
immediately-reported condition ... even in optimized builds").
On the 64-bit model `headerSize = sizeof(Footer) + sizeof(ptrdiff_t) = 17`
and `overhead = headerSize + sizeof(Footer) = 26`.  The new block is carved
from the `nextBase` oracle; the old `fDtorCursor` and a `NextBlock` footer
are installed at its start. -/
def ensureSpace (a : SkArenaAlloc) (size alignment : Nat) : Option SkArenaAlloc :=
  if size ≤ maxSize - 26 then
    let objSizeAndOverhead := size + 26
    let alignmentOverhead := alignment - 1
    if objSizeAndOverhead ≤ maxSize - alignmentOverhead then
      let objSizeAndOverhead := objSizeAndOverhead + alignmentOverhead
      let minAllocationSize := a.fNextHeapAlloc
      let allocationSize := max objSizeAndOverhead minAllocationSize
      let mask := if allocationSize > 32768 then 4095 else 15
      if allocationSize ≤ maxSize - mask then
        let allocationSize := roundUpMask allocationSize mask
        let newBlock := a.nextBase
        let previousDtor := a.fDtorCursor
        let a1 : SkArenaAlloc :=
          { a with
                   fNextHeapAlloc :=
                     if a.fYetNextHeapAlloc ≤ maxSize - a.fNextHeapAlloc then
                       a.fYetNextHeapAlloc
                     else maxSize,
                   fYetNextHeapAlloc :=
                     if a.fYetNextHeapAlloc ≤ maxSize - a.fNextHeapAlloc then
                       a.fNextHeapAlloc + a.fYetNextHeapAlloc
                     else a.fYetNextHeapAlloc,
                   fCursor := newBlock, fDtorCursor := newBlock,
                   fEnd := newBlock + allocationSize,
                   nextBase := newBlock + allocationSize,
                   heapBlocks := a.heapBlocks ++ [(newBlock, allocationSize)] }
        some (installFooter (installRawPtr a1 previousDtor) FooterActionV.nextBlock 0)
      else none
    else none
  else none

/-- Align `x` up to the power-of-two alignment `al` (source
`(x + mask) & ~mask` with `mask = alignment - 1`). -/
def alignUpTo (x al : Nat) : Nat := (x + (al - 1)) / al * al

/-- Loop body of `SkArenaAlloc::allocObjectWithFooter` (the `goto restart`
loop), with explicit fuel.  Each iteration: decide whether a skip footer is
needed (`fCursor != fDtorCursor`), add its 13-byte overhead
(`sizeof(Footer) + sizeof(uint32_t)`), try the null cursor, try the
capacity test against the aligned object start, else grow and retry.
On success, when a skip footer was needed, install the POD byte count
(`ToU32(fCursor - fDtorCursor)`) followed by a `SkipPod` footer. -/
def allocLoop : Nat → SkArenaAlloc → Nat → Nat → Option (SkArenaAlloc × Nat)
  | 0, _, _, _ => none
  | fuel + 1, a, sizeIncludingFooter, alignment =>
    let needsSkipFooter := a.fCursor ≠ a.fDtorCursor
    let skipOverhead := if needsSkipFooter then 13 else 0
    let totalSize := sizeIncludingFooter + skipOverhead
    if a.fCursor = 0 then
      match ensureSpace a totalSize alignment with
      | none => none
      | some a1 => allocLoop fuel a1 sizeIncludingFooter alignment
    else
      let objStart := alignUpTo (a.fCursor + skipOverhead) alignment
      if (totalSize : Int) > (a.fEnd : Int) - (objStart : Int) then
        match ensureSpace a totalSize alignment with
        | none => none
        | some a1 => allocLoop fuel a1 sizeIncludingFooter alignment
      else
        let a1 :=
          if needsSkipFooter then
            installFooter (installRawU32 a (a.fCursor - a.fDtorCursor)) FooterActionV.skipPod 0
          else a
        some (a1, objStart)

/-- Source `SkArenaAlloc::allocObjectWithFooter`.  The `goto restart` loop
runs at most twice (a retry always follows an `ensureSpace` that provided
room), so fuel 3 is never exhausted on a successful path. -/
def allocObjectWithFooter (a : SkArenaAlloc) (sizeIncludingFooter alignment : Nat) :
    Option (SkArenaAlloc × Nat) :=
  allocLoop 3 a sizeIncludingFooter alignment

/-- Modelled from the spec: the non-trivially-destructible branch of the
allocation entry point (`make<T>` lives in the arena header, which is not
among the given sources).  Per spec 4.3: request
`allocObjectWithFooter(sizeof(T) + sizeof(Footer), alignof(T))`, compute the
padding as the distance from the (possibly skip-advanced) cursor to the
aligned object start, advance the cursor past the object, construct the
object there, and install its `Destruct` footer with that padding.  The
returned address is the object start.  `allocId` tags the destructor lambda
for the model's teardown log. -/
def makeObj (a : SkArenaAlloc) (size alignment allocId : Nat) :
    Option (SkArenaAlloc × Nat) :=
  match allocObjectWithFooter a (size + 9) alignment with
  | none => none
  | some (a1, objStart) =>
    let padding := objStart - a1.fCursor
    let a2 := { a1 with fCursor := objStart + size }
    some (installFooter a2 (FooterActionV.dtorObj size allocId) padding, objStart)

/-- Modelled from the spec: the trivially-destructible allocation path
(`allocObject`, reached from `make<T>` for POD types; both live in the
arena header, which is not among the given sources).  Per spec 4.3: align
the cursor, and if the remaining capacity of the active block is
insufficient (or the cursor is null) grow via `ensureSpace` and retry; a
POD allocation installs no footer at all and leaves `fDtorCursor` alone. -/
def makePod (a : SkArenaAlloc) (size alignment : Nat) : Option (SkArenaAlloc × Nat) :=
  if a.fCursor ≠ 0 ∧
      (size : Int) ≤ (a.fEnd : Int) - (alignUpTo a.fCursor alignment : Int) then
    let objStart := alignUpTo a.fCursor alignment
    some ({ a with fCursor := objStart + size }, objStart)
  else
    match ensureSpace a size alignment with
    | none => none
    | some a1 =>
      let objStart := alignUpTo a1.fCursor alignment
      if (size : Int) ≤ (a1.fEnd : Int) - (objStart : Int) then
        some ({ a1 with fCursor := objStart + size }, objStart)
      else none

/-- Source `SkArenaAlloc::RunDtorsOnBlock` together with the four footer
actions it dispatches (`end_chain`, the `make<T>` destructor lambda,
`SkArenaAlloc::SkipPod`, `SkArenaAlloc::NextBlock`), as a fuel interpreter
over the memory.  It returns the log of destructed allocation ids (in
destruction order) and the list of base addresses passed to `delete []`
(in deletion order); `none` means out of fuel or a step that is undefined
behaviour on the real machine (decoding a cell that does not hold the
expected value, pointer underflow, or arithmetic on a null pointer with a
nonzero padding).  Address arithmetic mirrors the source: the action is
read at `footerEnd - sizeof(Footer)`, the padding byte at `footerEnd - 1`;
`SkipPod` reads its `int32_t` byte count at `footerEnd - 13` (counts at or
above `2^31` would reinterpret as negative and walk forward; modelled as
stuck), `NextBlock` reads the previous block's cursor at `footerEnd - 17`,
recursively drains it, then frees its own block, whose base is exactly
`footerEnd - 17`. -/
def RunDtorsOnBlock (mem : Nat → Cell) : Nat → Nat → Option (List Nat × List Nat)
  | 0, p => if p = 0 then some ([], []) else none
  | fuel + 1, p =>
    if p = 0 then some ([], []) else
    match mem (p - 9), mem (p - 1) with
    | Cell.actionC FooterActionV.endChain, Cell.byteC pad =>
      if pad = 0 then some ([], []) else none
    | Cell.actionC (FooterActionV.dtorObj s i), Cell.byteC pad =>
      if 9 + s + pad ≤ p then
        match RunDtorsOnBlock mem fuel (p - 9 - s - pad) with
        | some (ids, frees) => some (i :: ids, frees)
        | none => none
      else none
    | Cell.actionC FooterActionV.skipPod, Cell.byteC pad =>
      match mem (p - 13) with
      | Cell.u32C sk =>
        if sk < 2 ^ 31 ∧ 13 + sk + pad ≤ p then
          RunDtorsOnBlock mem fuel (p - 13 - sk - pad)
        else none
      | _ => none
    | Cell.actionC FooterActionV.nextBlock, Cell.byteC pad =>
      match mem (p - 17) with
      | Cell.ptrC q =>
        if 17 ≤ p ∧ pad = 0 then
          match RunDtorsOnBlock mem fuel q with
          | some (ids, frees) => some (ids, frees ++ [p - 17])
          | none => none
        else none
      | _ => none
    | _, _ => none

/-- Source `SkArenaAllocWithReset`: the arena plus the remembered original
construction parameters (and, for the model, the original heap oracle
position, so that reset restores the deterministic allocator state). -/
structure SkArenaAllocWithReset where
  arena : SkArenaAlloc
  fFirstBlock : Nat
  fFirstSize : Nat
  fFirstHeapAllocationSize : Nat
  firstNextBase : Nat

/-- Source constructor `SkArenaAllocWithReset::SkArenaAllocWithReset`
(`to_uint32_t` truncates the remembered size parameters). -/
def mkSkArenaAllocWithReset (mem0 : Nat → Cell) (block size firstHeapAllocation nextBase0 : Nat) :
    SkArenaAllocWithReset :=
  { arena := mkSkArenaAlloc mem0 block size firstHeapAllocation nextBase0,
    fFirstBlock := block, fFirstSize := ToU32 size,
    fFirstHeapAllocationSize := ToU32 firstHeapAllocation,
    firstNextBase := nextBase0 }

/-- Source `SkArenaAllocWithReset::reset`: run the destructor
(`RunDtorsOnBlock(fDtorCursor)`), then reconstruct in place from the
original parameters over the current memory.  Returns the reset arena
together with the destructor log and the freed blocks of the teardown. -/
def reset (fuel : Nat) (w : SkArenaAllocWithReset) :
    Option (SkArenaAllocWithReset × List Nat × List Nat) :=
  match RunDtorsOnBlock w.arena.mem fuel w.arena.fDtorCursor with
  | none => none
  | some (ids, frees) =>
    some ({ w with
              arena := mkSkArenaAlloc w.arena.mem w.fFirstBlock w.fFirstSize
                w.fFirstHeapAllocationSize w.firstNextBase },
          ids, frees)

/-- An allocation request: a trivially-destructible (`pod`) or destructible
(`obj`) object of the given size, with alignment `2 ^ alignPow` (C++
alignments are always powers of two). -/
inductive Req where
  | pod (size alignPow : Nat) : Req
  | obj (size alignPow : Nat) : Req
  deriving DecidableEq

/-- Run a list of requests, numbering destructible allocations from `i`. -/
def runAllocs : SkArenaAlloc → List Req → Nat → Option SkArenaAlloc
  | a, [], _ => some a
  | a, Req.pod s k :: rs, i =>
    match makePod a s (2 ^ k) with
    | none => none
    | some (a1, _) => runAllocs a1 rs i
  | a, Req.obj s k :: rs, i =>
    match makeObj a s (2 ^ k) i with
    | none => none
    | some (a1, _) => runAllocs a1 rs (i + 1)

/-- Allocation ids handed out to the destructible requests, in allocation
order. -/
def objIds : List Req → Nat → List Nat
  | [], _ => []
  | Req.pod _ _ :: rs, i => objIds rs i
  | Req.obj _ _ :: rs, i => i :: objIds rs (i + 1)

/-- Upper bound on how much a request can advance the cursor beyond the
destructor cursor without installing a footer: a POD's size plus the worst
alignment slack (255 bytes for alignments up to 256). -/
def podCost : Req → Nat
  | Req.pod s _ => s + 255
  | Req.obj _ _ => 0

/-- Total POD budget of a request list. -/
def podCostSum (l : List Req) : Nat := (l.map podCost).sum

/-- A well-formed request: alignment at most `2 ^ 8` (so footer paddings fit
the stored byte). -/
def reqOK : Req → Prop
  | Req.pod _ k => k ≤ 8
  | Req.obj _ k => k ≤ 8

instance reqOK_dec : DecidablePred reqOK := by
  intro r
  cases r with
  | pod s k => exact inferInstanceAs (Decidable (k ≤ 8))
  | obj s k => exact inferInstanceAs (Decidable (k ≤ 8))

/-- Well-formed request lists. -/
def ReqsOK (l : List Req) : Prop := ∀ r ∈ l, reqOK r

instance ReqsOK_dec (l : List Req) : Decidable (ReqsOK l) :=
  inferInstanceAs (Decidable (∀ r ∈ l, reqOK r))

/-- A destructible request with alignment at most `2 ^ 8`. -/
def objOnlyOK : Req → Prop
  | Req.pod _ _ => False
  | Req.obj _ k => k ≤ 8

instance objOnlyOK_dec : DecidablePred objOnlyOK := by
  intro r
  cases r with
  | pod s k => exact inferInstanceAs (Decidable False)
  | obj s k => exact inferInstanceAs (Decidable (k ≤ 8))

/-- Default arena (used only to extract from an `Option` totally). -/
def defaultArena : SkArenaAlloc :=
  { mem := fun _ => Cell.uninit, fDtorCursor := 0, fCursor := 0, fEnd := 0,
    fNextHeapAlloc := 0, fYetNextHeapAlloc := 0, nextBase := 0, heapBlocks := [] }

/-- Total extraction from an optional arena. -/
def getA (o : Option SkArenaAlloc) : SkArenaAlloc := o.getD defaultArena

/-- Total extraction from an optional allocation result. -/
def getAP (o : Option (SkArenaAlloc × Nat)) : SkArenaAlloc × Nat :=
  o.getD (defaultArena, 0)

/-- Cursor position after a run of trivially-destructible allocations
(`(size, alignPow)` pairs) starting at cursor `c`: each aligns up and
advances, never touching the destructor cursor. -/
def podsAdvance : Nat → List (Nat × Nat) → Nat
  | c, [] => c
  | c, q :: r => podsAdvance (alignUpTo c (2 ^ q.2) + q.1) r

/-- The POD run fits the active block `[_, e)` without growing: every
aligned allocation ends at or before `e`. -/
def PodsFit : Nat → Nat → List (Nat × Nat) → Prop
  | _, _, [] => True
  | c, e, q :: r =>
    alignUpTo c (2 ^ q.2) + q.1 ≤ e ∧ PodsFit (alignUpTo c (2 ^ q.2) + q.1) e r

instance PodsFit_dec (c e : Nat) (pods : List (Nat × Nat)) :
    Decidable (PodsFit c e pods) := by
  induction pods generalizing c with
  | nil => exact isTrue trivial
  | cons q r ih =>
    have hd : Decidable (PodsFit (alignUpTo c (2 ^ q.2) + q.1) e r) :=
      ih (alignUpTo c (2 ^ q.2) + q.1)
    show Decidable (alignUpTo c (2 ^ q.2) + q.1 ≤ e ∧
      PodsFit (alignUpTo c (2 ^ q.2) + q.1) e r)
    exact @instDecidableAnd _ _ _ hd

/-- A concrete mid-life arena state used to instantiate the `ensureSpace`
theorems: active block `[16, 80)` with the cursor past the sentinel, growth
counters at 64, heap frontier at 96. -/
def sampleArena : SkArenaAlloc :=
  { mem := fun _ => Cell.uninit, fDtorCursor := 25, fCursor := 25, fEnd := 80,
    fNextHeapAlloc := 64, fYetNextHeapAlloc := 64, nextBase := 96, heapBlocks := [] }

/-- Characterisation of the backward footer-chain walk that
`RunDtorsOnBlock` performs from `footerEnd = p`, with every address it reads
constrained to lie in the region `R`: `ids` is the destructor log, `frees`
the freed block bases, and `t` the footer end of the `end_chain` sentinel
the walk terminates at (`none` when the walk starts, or chains into, a null
pointer and never reads a sentinel). -/
inductive WalkRT (R : Nat → Prop) (mem : Nat → Cell) :
    Nat → List Nat → List Nat → Option Nat → Prop where
  | done : WalkRT R mem 0 [] [] none
  | stop (p : Nat) :
      p ≠ 0 → R (p - 9) → R (p - 1) →
      mem (p - 9) = Cell.actionC FooterActionV.endChain →
      mem (p - 1) = Cell.byteC 0 →
      WalkRT R mem p [] [] (some p)
  | dtor (p s i pad : Nat) (ids frees : List Nat) (t : Option Nat) :
      p ≠ 0 → R (p - 9) → R (p - 1) →
      mem (p - 9) = Cell.actionC (FooterActionV.dtorObj s i) →
      mem (p - 1) = Cell.byteC pad →
      9 + s + pad ≤ p →
      WalkRT R mem (p - 9 - s - pad) ids frees t →
      WalkRT R mem p (i :: ids) frees t
  | skip (p sk pad : Nat) (ids frees : List Nat) (t : Option Nat) :
      p ≠ 0 → R (p - 9) → R (p - 1) → R (p - 13) →
      mem (p - 9) = Cell.actionC FooterActionV.skipPod →
      mem (p - 1) = Cell.byteC pad →
      mem (p - 13) = Cell.u32C sk →
      sk < 2 ^ 31 → 13 + sk + pad ≤ p →
      WalkRT R mem (p - 13 - sk - pad) ids frees t →
      WalkRT R mem p ids frees t
  | next (p q : Nat) (ids frees : List Nat) (t : Option Nat) :
      p ≠ 0 → R (p - 9) → R (p - 1) → R (p - 17) →
      mem (p - 9) = Cell.actionC FooterActionV.nextBlock →
      mem (p - 1) = Cell.byteC 0 →
      mem (p - 17) = Cell.ptrC q →
      17 ≤ p →
      WalkRT R mem q ids frees t →
      WalkRT R mem p ids (frees ++ [p - 17]) t

/-- Addresses the footer chain of arena `a` may occupy: strictly below the
heap oracle frontier, and outside the active block's unwritten tail
`[fCursor, fEnd)` (every future store of the arena happens at or above
`fCursor` and below `fEnd`, or at or above `nextBase`). -/
def Region (a : SkArenaAlloc) : Nat → Prop :=
  fun x => x < a.nextBase ∧ (x < a.fCursor ∨ a.fEnd ≤ x)

/-- The arena invariant, parameterised by the heap floor `L` (all heap
blocks live at or above `L`): the footer chain starting at `fDtorCursor`
walks exactly the destructor log `ids`, frees exactly the heap block bases
in creation order, terminates at sentinel `t`, and reads only settled
addresses; the cursors are ordered, the active block sits below the heap
frontier, and the heap blocks have pairwise distinct, increasing bases. -/
structure ArenaInv (L : Nat) (a : SkArenaAlloc) (ids : List Nat) (t : Option Nat) : Prop where
  walk : WalkRT (Region a) a.mem a.fDtorCursor ids (a.heapBlocks.map Prod.fst) t
  dc_c : a.fDtorCursor ≤ a.fCursor
  c_e : a.fCursor ≤ a.fEnd
  e_nb : a.fEnd ≤ a.nextBase
  nb_pos : 1 ≤ a.nextBase
  dc0 : a.fCursor = 0 → a.fDtorCursor = 0
  lb_nb : L ≤ a.nextBase
  hb_lb : ∀ q ∈ a.heapBlocks, L ≤ q.1
  hb_ub : ∀ q ∈ a.heapBlocks, q.1 < a.nextBase
  hb_sorted : (a.heapBlocks.map Prod.fst).Pairwise (· < ·)

/-- Equality of the fields that drive the allocation path (everything of
the source class except the memory contents; the model bookkeeping
`heapBlocks` is also excluded). -/
def sameCore (a b : SkArenaAlloc) : Prop :=
  a.fDtorCursor = b.fDtorCursor ∧ a.fCursor = b.fCursor ∧ a.fEnd = b.fEnd ∧
  a.fNextHeapAlloc = b.fNextHeapAlloc ∧ a.fYetNextHeapAlloc = b.fYetNextHeapAlloc ∧
  a.nextBase = b.nextBase

/-- The pre-rounding block size `max(objSizeAndOverhead, minAllocationSize)`
that `ensureSpace` computes for a request of `size` bytes at alignment
`alignment`. -/
def preRoundSize (a : SkArenaAlloc) (size alignment : Nat) : Nat :=
  max (size + 26 + (alignment - 1)) a.fNextHeapAlloc

/-- The final block size `ensureSpace` allocates: the pre-rounding size
rounded up to 4 KiB above 32 KiB, else to 16 bytes. -/
def finalBlockSize (a : SkArenaAlloc) (size alignment : Nat) : Nat :=
  roundUpMask (preRoundSize a size alignment)
    (if preRoundSize a size alignment > 32768 then 4095 else 15)

theorem writeCell_at (m : Nat → Cell) (o k : Nat) (v : Cell) : writeCell m o k v o = v := by
  simp [writeCell]

theorem writeCell_out (m : Nat → Cell) (o k : Nat) (v : Cell) (j : Nat)
    (hk : 1 ≤ k) (h : j < o ∨ o + k ≤ j) : writeCell m o k v j = m j := by
  unfold writeCell
  rw [if_neg (by omega), if_neg (by omega)]

theorem WalkRT_adequate {R : Nat → Prop} {mem : Nat → Cell} :
    ∀ {p : Nat} {ids frees : List Nat} {t : Option Nat}, WalkRT R mem p ids frees t →
      ∃ fuel, RunDtorsOnBlock mem fuel p = some (ids, frees) := by
  intro p ids frees t h
  induction h with
  | done => exact ⟨0, rfl⟩
  | stop p hp _ _ h9 h1 =>
    refine ⟨1, ?_⟩
    simp only [RunDtorsOnBlock, if_neg hp, h9, h1, if_pos trivial]
  | dtor p s i pad ids frees t hp _ _ h9 h1 hle _ ih =>
    obtain ⟨f, hf⟩ := ih
    refine ⟨f + 1, ?_⟩
    simp only [RunDtorsOnBlock, if_neg hp, h9, h1, if_pos hle, hf]
  | skip p sk pad ids frees t hp _ _ _ h9 h1 h13 hsk hle _ ih =>
    obtain ⟨f, hf⟩ := ih
    refine ⟨f + 1, ?_⟩
    simp only [RunDtorsOnBlock, if_neg hp, h9, h1, h13]
    rw [if_pos ⟨hsk, hle⟩]
    exact hf
  | next p q ids frees t hp _ _ _ h9 h1 h17 hple _ ih =>
    obtain ⟨f, hf⟩ := ih
    refine ⟨f + 1, ?_⟩
    simp only [RunDtorsOnBlock, if_neg hp, h9, h1, h17, hf]
    rw [if_pos ⟨hple, trivial⟩]

theorem WalkRT_frame {R : Nat → Prop} {mem mem' : Nat → Cell}
    (hag : ∀ x, R x → mem' x = mem x) :
    ∀ {p : Nat} {ids frees : List Nat} {t : Option Nat},
      WalkRT R mem p ids frees t → WalkRT R mem' p ids frees t := by
  intro p ids frees t h
  induction h with
  | done => exact WalkRT.done
  | stop p hp hr9 hr1 h9 h1 =>
    exact WalkRT.stop p hp hr9 hr1 (by rw [hag _ hr9]; exact h9) (by rw [hag _ hr1]; exact h1)
  | dtor p s i pad ids frees t hp hr9 hr1 h9 h1 hle _ ih =>
    exact WalkRT.dtor p s i pad ids frees t hp hr9 hr1
      (by rw [hag _ hr9]; exact h9) (by rw [hag _ hr1]; exact h1) hle ih
  | skip p sk pad ids frees t hp hr9 hr1 hr13 h9 h1 h13 hsk hle _ ih =>
    exact WalkRT.skip p sk pad ids frees t hp hr9 hr1 hr13
      (by rw [hag _ hr9]; exact h9) (by rw [hag _ hr1]; exact h1)
      (by rw [hag _ hr13]; exact h13) hsk hle ih
  | next p q ids frees t hp hr9 hr1 hr17 h9 h1 h17 hple _ ih =>
    exact WalkRT.next p q ids frees t hp hr9 hr1 hr17
      (by rw [hag _ hr9]; exact h9) (by rw [hag _ hr1]; exact h1)
      (by rw [hag _ hr17]; exact h17) hple ih

theorem WalkRT_mono {R R' : Nat → Prop} (himp : ∀ x, R x → R' x) {mem : Nat → Cell} :
    ∀ {p : Nat} {ids frees : List Nat} {t : Option Nat},
      WalkRT R mem p ids frees t → WalkRT R' mem p ids frees t := by
  intro p ids frees t h
  induction h with
  | done => exact WalkRT.done
  | stop p hp hr9 hr1 h9 h1 =>
    exact WalkRT.stop p hp (himp _ hr9) (himp _ hr1) h9 h1
  | dtor p s i pad ids frees t hp hr9 hr1 h9 h1 hle _ ih =>
    exact WalkRT.dtor p s i pad ids frees t hp (himp _ hr9) (himp _ hr1) h9 h1 hle ih
  | skip p sk pad ids frees t hp hr9 hr1 hr13 h9 h1 h13 hsk hle _ ih =>
    exact WalkRT.skip p sk pad ids frees t hp (himp _ hr9) (himp _ hr1) (himp _ hr13)
      h9 h1 h13 hsk hle ih
  | next p q ids frees t hp hr9 hr1 hr17 h9 h1 h17 hple _ ih =>
    exact WalkRT.next p q ids frees t hp (himp _ hr9) (himp _ hr1) (himp _ hr17)
      h9 h1 h17 hple ih

theorem WalkRT_terminal_aux {R : Nat → Prop} {mem : Nat → Cell} :
    ∀ {p : Nat} {ids frees : List Nat} {t : Option Nat}, WalkRT R mem p ids frees t →
      ∀ tp, t = some tp →
        mem (tp - 9) = Cell.actionC FooterActionV.endChain ∧ mem (tp - 1) = Cell.byteC 0 := by
  intro p ids frees t h
  induction h with
  | done => intro tp htp; cases htp
  | stop p hp hr9 hr1 h9 h1 => intro tp htp; cases htp; exact ⟨h9, h1⟩
  | dtor p s i pad ids frees t hp hr9 hr1 h9 h1 hle _ ih => exact ih
  | skip p sk pad ids frees t hp hr9 hr1 hr13 h9 h1 h13 hsk hle _ ih => exact ih
  | next p q ids frees t hp hr9 hr1 hr17 h9 h1 h17 hple _ ih => exact ih

theorem WalkRT_terminal {R : Nat → Prop} {mem : Nat → Cell} {p : Nat}
    {ids frees : List Nat} {tp : Nat} (h : WalkRT R mem p ids frees (some tp)) :
    mem (tp - 9) = Cell.actionC FooterActionV.endChain ∧ mem (tp - 1) = Cell.byteC 0 :=
  WalkRT_terminal_aux h tp rfl

theorem alignUpTo_bounds (x al : Nat) (h : 1 ≤ al) :
    x ≤ alignUpTo x al ∧ alignUpTo x al < x + al := by
  have hd := Nat.div_add_mod (x + (al - 1)) al
  have hm : (x + (al - 1)) % al < al := Nat.mod_lt _ (by omega)
  unfold alignUpTo
  rw [Nat.mul_comm al ((x + (al - 1)) / al)] at hd
  omega

theorem roundUpMask_bounds (v m : Nat) :
    v ≤ roundUpMask v m ∧ roundUpMask v m ≤ v + m ∧ roundUpMask v m % (m + 1) = 0 := by
  have hd := Nat.div_add_mod (v + m) (m + 1)
  have hm : (v + m) % (m + 1) < m + 1 := Nat.mod_lt _ (by omega)
  unfold roundUpMask
  refine ⟨by omega, by omega, ?_⟩
  have he : (v + m) - (v + m) % (m + 1) = (m + 1) * ((v + m) / (m + 1)) := by omega
  rw [he, Nat.mul_mod_right]

theorem ensureSpace_inverted {a : SkArenaAlloc} {size al : Nat} {a' : SkArenaAlloc}
    (h : ensureSpace a size al = some a') :
    size ≤ maxSize - 26 ∧ size + 26 ≤ maxSize - (al - 1) ∧
    max (size + 26 + (al - 1)) a.fNextHeapAlloc ≤
      maxSize - (if max (size + 26 + (al - 1)) a.fNextHeapAlloc > 32768 then 4095 else 15) ∧
    a' = installFooter (installRawPtr
      { a with
          fNextHeapAlloc :=
            if a.fYetNextHeapAlloc ≤ maxSize - a.fNextHeapAlloc then a.fYetNextHeapAlloc
            else maxSize,
          fYetNextHeapAlloc :=
            if a.fYetNextHeapAlloc ≤ maxSize - a.fNextHeapAlloc then
              a.fNextHeapAlloc + a.fYetNextHeapAlloc
            else a.fYetNextHeapAlloc,
          fCursor := a.nextBase, fDtorCursor := a.nextBase,
          fEnd := a.nextBase + finalBlockSize a size al,
          nextBase := a.nextBase + finalBlockSize a size al,
          heapBlocks := a.heapBlocks ++ [(a.nextBase, finalBlockSize a size al)] }
      a.fDtorCursor) FooterActionV.nextBlock 0 := by
  simp only [ensureSpace] at h
  by_cases hg1 : size ≤ maxSize - 26
  · rw [if_pos hg1] at h
    by_cases hg2 : size + 26 ≤ maxSize - (al - 1)
    · rw [if_pos hg2] at h
      by_cases hg3 : max (size + 26 + (al - 1)) a.fNextHeapAlloc ≤
          maxSize - (if max (size + 26 + (al - 1)) a.fNextHeapAlloc > 32768 then 4095 else 15)
      · rw [if_pos hg3] at h
        injection h with h
        exact ⟨hg1, hg2, hg3, h.symm⟩
      · rw [if_neg hg3] at h
        exact Option.noConfusion h
    · rw [if_neg hg2] at h
      exact Option.noConfusion h
  · rw [if_neg hg1] at h
    exact Option.noConfusion h


theorem ensureSpace_fields {a : SkArenaAlloc} {size al : Nat} {a' : SkArenaAlloc}
    (h : ensureSpace a size al = some a') :
    a'.fCursor = a.nextBase + 17 ∧
    a'.fDtorCursor = a.nextBase + 17 ∧
    a'.fEnd = a.nextBase + finalBlockSize a size al ∧
    a'.nextBase = a.nextBase + finalBlockSize a size al ∧
    a'.heapBlocks = a.heapBlocks ++ [(a.nextBase, finalBlockSize a size al)] ∧
    a'.mem = writeCell (writeCell (writeCell a.mem
        a.nextBase 8 (Cell.ptrC a.fDtorCursor))
        (a.nextBase + 8) 8 (Cell.actionC FooterActionV.nextBlock))
        (a.nextBase + 16) 1 (Cell.byteC 0) ∧
    a'.fNextHeapAlloc =
      (if a.fYetNextHeapAlloc ≤ maxSize - a.fNextHeapAlloc then a.fYetNextHeapAlloc
       else maxSize) ∧
    a'.fYetNextHeapAlloc =
      (if a.fYetNextHeapAlloc ≤ maxSize - a.fNextHeapAlloc then
         a.fNextHeapAlloc + a.fYetNextHeapAlloc
       else a.fYetNextHeapAlloc) ∧
    size + 26 + (al - 1) ≤ finalBlockSize a size al ∧
    a.fNextHeapAlloc ≤ finalBlockSize a size al ∧
    finalBlockSize a size al ≤ maxSize := by
  obtain ⟨hg1, hg2, hg3, he⟩ := ensureSpace_inverted h
  have hb := roundUpMask_bounds (max (size + 26 + (al - 1)) a.fNextHeapAlloc)
      (if max (size + 26 + (al - 1)) a.fNextHeapAlloc > 32768 then 4095 else 15)
  have hms : maxSize = 4294967295 := rfl
  have hfb : finalBlockSize a size al =
      roundUpMask (max (size + 26 + (al - 1)) a.fNextHeapAlloc)
        (if max (size + 26 + (al - 1)) a.fNextHeapAlloc > 32768 then 4095 else 15) := rfl
  have hmk : (if max (size + 26 + (al - 1)) a.fNextHeapAlloc > 32768 then 4095 else 15) ≤ 4095 := by
    split <;> omega
  subst he
  simp only [installFooter, installRawByte, installRawAction, installRawPtr]
  obtain ⟨hb1, hb2, hb3⟩ := hb
  rw [hfb]
  have hKle : (if max (size + 26 + (al - 1)) a.fNextHeapAlloc > 32768 then 4095 else 15) ≤
      maxSize := le_trans hmk (by rw [hms]; omega)
  refine ⟨trivial, trivial, trivial, trivial, trivial, trivial, trivial, trivial, ?_, ?_, ?_⟩
  · exact le_trans (le_max_left _ _) hb1
  · exact le_trans (le_max_right _ _) hb1
  · exact le_trans hb2 (le_trans (Nat.add_le_add_right hg3 _)
      (le_of_eq (Nat.sub_add_cancel hKle)))

theorem ensureSpace_none_iff (a : SkArenaAlloc) (size al : Nat) :
    ensureSpace a size al = none ↔
      maxSize < size + 26 ∨ maxSize < size + 26 + (al - 1) ∨
      maxSize < max (size + 26 + (al - 1)) a.fNextHeapAlloc +
        (if max (size + 26 + (al - 1)) a.fNextHeapAlloc > 32768 then 4095 else 15) := by
  have hms : maxSize = 4294967295 := rfl
  have hmk : (if max (size + 26 + (al - 1)) a.fNextHeapAlloc > 32768 then 4095 else 15) ≤
      4095 := by split <;> omega
  simp only [ensureSpace]
  by_cases hg1 : size ≤ maxSize - 26
  · rw [if_pos hg1]
    by_cases hg2 : size + 26 ≤ maxSize - (al - 1)
    · rw [if_pos hg2]
      by_cases hg3 : max (size + 26 + (al - 1)) a.fNextHeapAlloc ≤
          maxSize - (if max (size + 26 + (al - 1)) a.fNextHeapAlloc > 32768 then 4095 else 15)
      · rw [if_pos hg3]
        constructor
        · intro hc; exact Option.noConfusion hc
        · intro hc; exfalso; omega
      · rw [if_neg hg3]
        constructor
        · intro _; right; right; omega
        · intro _; rfl
    · rw [if_neg hg2]
      constructor
      · intro _; right; left; omega
      · intro _; rfl
  · rw [if_neg hg1]
    constructor
    · intro _; left; omega
    · intro _; rfl

theorem ensureSpace_ArenaInv {L : Nat} {a : SkArenaAlloc} {ids : List Nat} {t : Option Nat}
    {size al : Nat} {a' : SkArenaAlloc}
    (hI : ArenaInv L a ids t) (h : ensureSpace a size al = some a') :
    ArenaInv L a' ids t := by
  obtain ⟨hc, hdc, he, hnb, hhb, hmem, hnha, hynha, hge, hgemin, hle⟩ := ensureSpace_fields h
  have hS26 : 26 ≤ finalBlockSize a size al := le_trans (by omega) hge
  have hB1 : 1 ≤ a.nextBase := hI.nb_pos
  -- memory lookups in the freshly written NextBlock record
  have hm0 : a'.mem a.nextBase = Cell.ptrC a.fDtorCursor := by
    rw [hmem, writeCell_out _ _ _ _ _ (by omega) (Or.inl (by omega)),
        writeCell_out _ _ _ _ _ (by omega) (Or.inl (by omega)), writeCell_at]
  have hm8 : a'.mem (a.nextBase + 8) = Cell.actionC FooterActionV.nextBlock := by
    rw [hmem, writeCell_out _ _ _ _ _ (by omega) (Or.inl (by omega)), writeCell_at]
  have hm16 : a'.mem (a.nextBase + 16) = Cell.byteC 0 := by
    rw [hmem, writeCell_at]
  -- the old chain is untouched and its region grows
  have hframe : ∀ x, Region a x → a'.mem x = a.mem x := by
    intro x hx
    have hxB : x < a.nextBase := hx.1
    rw [hmem, writeCell_out _ _ _ _ _ (by omega) (Or.inl (by omega)),
        writeCell_out _ _ _ _ _ (by omega) (Or.inl (by omega)),
        writeCell_out _ _ _ _ _ (by omega) (Or.inl hxB)]
  have hmono : ∀ x, Region a x → Region a' x := by
    intro x hx
    have hxB : x < a.nextBase := hx.1
    exact ⟨by omega, Or.inl (by omega)⟩
  have hwalkOld : WalkRT (Region a') a'.mem a.fDtorCursor ids (a.heapBlocks.map Prod.fst) t :=
    WalkRT_mono hmono (WalkRT_frame hframe hI.walk)
  refine ⟨?_, ?_, ?_, ?_, ?_, ?_, ?_, ?_, ?_, ?_⟩
  · -- walk
    rw [hdc, hhb]
    have hstep := WalkRT.next (a.nextBase + 17) a.fDtorCursor ids
      (a.heapBlocks.map Prod.fst) t (by omega)
      (by rw [show a.nextBase + 17 - 9 = a.nextBase + 8 from by omega]
          exact ⟨by omega, Or.inl (by omega)⟩)
      (by rw [show a.nextBase + 17 - 1 = a.nextBase + 16 from by omega]
          exact ⟨by omega, Or.inl (by omega)⟩)
      (by rw [show a.nextBase + 17 - 17 = a.nextBase from by omega]
          exact ⟨by omega, Or.inl (by omega)⟩)
      (by rw [show a.nextBase + 17 - 9 = a.nextBase + 8 from by omega]; exact hm8)
      (by rw [show a.nextBase + 17 - 1 = a.nextBase + 16 from by omega]; exact hm16)
      (by rw [show a.nextBase + 17 - 17 = a.nextBase from by omega]; exact hm0)
      (by omega) hwalkOld
    rw [show a.nextBase + 17 - 17 = a.nextBase from by omega] at hstep
    simpa using hstep
  · rw [hdc, hc]
  · rw [hc, he]; omega
  · rw [he, hnb]
  · rw [hnb]; omega
  · rw [hc]; intro hcon; omega
  · rw [hnb]; have := hI.lb_nb; omega
  · rw [hhb]
    intro q hq
    rcases List.mem_append.mp hq with hq | hq
    · exact hI.hb_lb q hq
    · rcases List.mem_singleton.mp hq with rfl
      have := hI.lb_nb; simpa using this
  · rw [hhb, hnb]
    intro q hq
    rcases List.mem_append.mp hq with hq | hq
    · have := hI.hb_ub q hq; omega
    · rcases List.mem_singleton.mp hq with rfl
      simp; omega
  · rw [hhb]
    rw [List.map_append]
    rw [List.pairwise_append]
    refine ⟨hI.hb_sorted, by simp, ?_⟩
    intro x hx y hy
    simp at hy
    subst hy
    obtain ⟨q, hqmem, rfl⟩ := List.mem_map.mp hx
    exact hI.hb_ub q hqmem

theorem allocLoop_inv {L : Nat} :
    ∀ (fuel : Nat) (a : SkArenaAlloc) (sizeIncl al : Nat) (ids : List Nat) (t : Option Nat)
      (a' : SkArenaAlloc) (p : Nat),
      ArenaInv L a ids t →
      a.fCursor - a.fDtorCursor < 2 ^ 31 →
      1 ≤ al → al ≤ 256 →
      allocLoop fuel a sizeIncl al = some (a', p) →
      ArenaInv L a' ids t ∧ a'.fCursor = a'.fDtorCursor ∧
        p = alignUpTo a'.fCursor al ∧ a'.fCursor ≤ p ∧ p + sizeIncl ≤ a'.fEnd ∧
        a'.fCursor ≠ 0 := by
  intro fuel
  induction fuel with
  | zero =>
    intro a sizeIncl al ids t a' p _ _ _ _ hrun
    exact Option.noConfusion hrun
  | succ n ih =>
    intro a sizeIncl al ids t a' p hI hspan hal1 hal2 hrun
    simp only [allocLoop] at hrun
    by_cases hc0 : a.fCursor = 0
    · rw [if_pos hc0] at hrun
      cases hes : ensureSpace a (sizeIncl + if a.fCursor ≠ a.fDtorCursor then 13 else 0) al with
      | none => rw [hes] at hrun; exact Option.noConfusion hrun
      | some a1 =>
        rw [hes] at hrun
        obtain ⟨hc1, hdc1, _⟩ := ensureSpace_fields hes
        exact ih a1 sizeIncl al ids t a' p (ensureSpace_ArenaInv hI hes)
          (by rw [hc1, hdc1]; omega) hal1 hal2 hrun
    · rw [if_neg hc0] at hrun
      by_cases hfit : ((sizeIncl + if a.fCursor ≠ a.fDtorCursor then 13 else 0 : Nat) : Int) >
          (a.fEnd : Int) -
            (alignUpTo (a.fCursor + if a.fCursor ≠ a.fDtorCursor then 13 else 0) al : Int)
      · rw [if_pos hfit] at hrun
        cases hes : ensureSpace a (sizeIncl + if a.fCursor ≠ a.fDtorCursor then 13 else 0) al with
        | none => rw [hes] at hrun; exact Option.noConfusion hrun
        | some a1 =>
          rw [hes] at hrun
          obtain ⟨hc1, hdc1, _⟩ := ensureSpace_fields hes
          exact ih a1 sizeIncl al ids t a' p (ensureSpace_ArenaInv hI hes)
            (by rw [hc1, hdc1]; omega) hal1 hal2 hrun
      · rw [if_neg hfit] at hrun
        by_cases hsk : a.fCursor = a.fDtorCursor
        · -- no skip footer: the result state is `a` itself
          rw [if_neg (not_not_intro hsk)] at hfit
          simp only [if_neg (not_not_intro hsk)] at hrun
          injection hrun with hrun
          rw [Prod.mk.injEq] at hrun
          obtain ⟨ha', hp⟩ := hrun
          subst ha'
          subst hp
          have hb := alignUpTo_bounds (a.fCursor + 0) al hal1
          refine ⟨hI, hsk.symm ▸ rfl, by simp, by omega, by omega, hc0⟩
        · -- a skip footer terminates the pending POD run
          rw [if_pos hsk] at hfit
          simp only [if_pos hsk] at hrun
          injection hrun with hrun
          rw [Prod.mk.injEq] at hrun
          obtain ⟨ha', hp⟩ := hrun
          have hdcc := hI.dc_c
          have hce := hI.c_e
          have henb := hI.e_nb
          have hb13 := alignUpTo_bounds (a.fCursor + 13) al hal1
          have hmod : (a.fCursor - a.fDtorCursor) % 4294967296 =
              a.fCursor - a.fDtorCursor := by omega
          set X := installFooter (installRawU32 a (a.fCursor - a.fDtorCursor))
            FooterActionV.skipPod 0 with hX
          have hXc : X.fCursor = a.fCursor + 13 := by
            simp only [hX, installFooter, installRawByte, installRawU32, installRawAction]
          have hXdc : X.fDtorCursor = a.fCursor + 13 := by
            simp only [hX, installFooter, installRawByte, installRawU32, installRawAction]
          have hXe : X.fEnd = a.fEnd := rfl
          have hXnb : X.nextBase = a.nextBase := rfl
          have hXhb : X.heapBlocks = a.heapBlocks := rfl
          have hXmem : X.mem = writeCell (writeCell (writeCell a.mem
              a.fCursor 4 (Cell.u32C (a.fCursor - a.fDtorCursor)))
              (a.fCursor + 4) 8 (Cell.actionC FooterActionV.skipPod))
              (a.fCursor + 12) 1 (Cell.byteC 0) := by
            simp only [hX, installFooter, installRawByte, installRawU32, installRawAction, hmod]
          have hinblock : a.fCursor + 13 ≤ a.fEnd := by omega
          have hm4 : X.mem (a.fCursor + 4) = Cell.actionC FooterActionV.skipPod := by
            rw [hXmem, writeCell_out _ _ _ _ _ (by omega) (by omega), writeCell_at]
          have hm12 : X.mem (a.fCursor + 12) = Cell.byteC 0 := by
            rw [hXmem, writeCell_at]
          have hm0 : X.mem a.fCursor = Cell.u32C (a.fCursor - a.fDtorCursor) := by
            rw [hXmem, writeCell_out _ _ _ _ _ (by omega) (by omega),
                writeCell_out _ _ _ _ _ (by omega) (by omega), writeCell_at]
          have hframe : ∀ x, Region a x → X.mem x = a.mem x := by
            intro x hx
            obtain ⟨hx1, hx2⟩ := hx
            rw [hXmem, writeCell_out _ _ _ _ _ (by omega) (by omega),
                writeCell_out _ _ _ _ _ (by omega) (by omega),
                writeCell_out _ _ _ _ _ (by omega) (by omega)]
          have hmono : ∀ x, Region a x → Region X x := by
            intro x hx
            obtain ⟨hx1, hx2⟩ := hx
            simp only [Region, hXnb, hXc]
            omega
          have hwalkOld : WalkRT (Region X) X.mem a.fDtorCursor ids
              (a.heapBlocks.map Prod.fst) t :=
            WalkRT_mono hmono (WalkRT_frame hframe hI.walk)
          have hwalk : WalkRT (Region X) X.mem X.fDtorCursor ids
              (X.heapBlocks.map Prod.fst) t := by
            rw [hXdc, hXhb]
            refine WalkRT.skip (a.fCursor + 13) (a.fCursor - a.fDtorCursor) 0 ids
              (a.heapBlocks.map Prod.fst) t (by omega)
              (by simp only [Region, hXnb, hXc]; omega)
              (by simp only [Region, hXnb, hXc]; omega)
              (by simp only [Region, hXnb, hXc]; omega)
              (by rw [show a.fCursor + 13 - 9 = a.fCursor + 4 from by omega]; exact hm4)
              (by rw [show a.fCursor + 13 - 1 = a.fCursor + 12 from by omega]; exact hm12)
              (by rw [show a.fCursor + 13 - 13 = a.fCursor from by omega]; exact hm0)
              (by omega) (by omega) ?_
            rw [show a.fCursor + 13 - 13 - (a.fCursor - a.fDtorCursor) - 0 =
                a.fDtorCursor from by omega]
            exact hwalkOld
          have hIX : ArenaInv L X ids t := by
            refine ⟨hwalk, ?_, ?_, ?_, ?_, ?_, ?_, ?_, ?_, ?_⟩
            · rw [hXdc, hXc]
            · rw [hXc, hXe]; omega
            · rw [hXe, hXnb]; exact henb
            · rw [hXnb]; exact hI.nb_pos
            · rw [hXc]; intro hcon; omega
            · rw [hXnb]; exact hI.lb_nb
            · rw [hXhb]; exact hI.hb_lb
            · rw [hXhb, hXnb]; exact hI.hb_ub
            · rw [hXhb]; exact hI.hb_sorted
          subst ha'
          refine ⟨hIX, by rw [hXc, hXdc], by rw [hXc, ← hp], ?_, ?_, ?_⟩
          · rw [hXc, ← hp]; omega
          · rw [hXe, ← hp]; omega
          · rw [hXc]; omega

theorem makeObj_inv {L : Nat} {a : SkArenaAlloc} {z al i : Nat} {ids : List Nat}
    {t : Option Nat} {a' : SkArenaAlloc} {p : Nat}
    (hI : ArenaInv L a ids t)
    (hspan : a.fCursor - a.fDtorCursor < 2 ^ 31)
    (hal1 : 1 ≤ al) (hal2 : al ≤ 256)
    (h : makeObj a z al i = some (a', p)) :
    ArenaInv L a' (i :: ids) t ∧ a'.fCursor = a'.fDtorCursor ∧ a'.fCursor ≠ 0 := by
  simp only [makeObj, allocObjectWithFooter] at h
  cases hA : allocLoop 3 a (z + 9) al with
  | none => rw [hA] at h; exact Option.noConfusion h
  | some res =>
    obtain ⟨a1, q⟩ := res
    rw [hA] at h
    injection h with h
    rw [Prod.mk.injEq] at h
    obtain ⟨ha', hp⟩ := h
    obtain ⟨hI1, hcd, hq, hcq, hfitz, hc01⟩ := allocLoop_inv 3 a (z + 9) al ids t a1 q
      hI hspan hal1 hal2 hA
    have hqb := alignUpTo_bounds a1.fCursor al hal1
    have hpadlt : q - a1.fCursor < al := by omega
    have hmodp : (q - a1.fCursor) % 256 = q - a1.fCursor := by omega
    have henb1 := hI1.e_nb
    have hce1 := hI1.c_e
    set Y := installFooter { a1 with fCursor := q + z }
      (FooterActionV.dtorObj z i) (q - a1.fCursor) with hY
    have hYc : Y.fCursor = q + z + 9 := by
      simp only [hY, installFooter, installRawByte, installRawAction]
    have hYdc : Y.fDtorCursor = q + z + 9 := by
      simp only [hY, installFooter, installRawByte, installRawAction]
    have hYe : Y.fEnd = a1.fEnd := rfl
    have hYnb : Y.nextBase = a1.nextBase := rfl
    have hYhb : Y.heapBlocks = a1.heapBlocks := rfl
    have hYmem : Y.mem = writeCell (writeCell a1.mem
        (q + z) 8 (Cell.actionC (FooterActionV.dtorObj z i)))
        (q + z + 8) 1 (Cell.byteC (q - a1.fCursor)) := by
      simp only [hY, installFooter, installRawByte, installRawAction, hmodp]
    have hm9 : Y.mem (q + z) = Cell.actionC (FooterActionV.dtorObj z i) := by
      rw [hYmem, writeCell_out _ _ _ _ _ (by omega) (by omega), writeCell_at]
    have hm1 : Y.mem (q + z + 8) = Cell.byteC (q - a1.fCursor) := by
      rw [hYmem, writeCell_at]
    have hframe : ∀ x, Region a1 x → Y.mem x = a1.mem x := by
      intro x hx
      obtain ⟨hx1, hx2⟩ := hx
      rw [hYmem, writeCell_out _ _ _ _ _ (by omega) (by omega),
          writeCell_out _ _ _ _ _ (by omega) (by omega)]
    have hmono : ∀ x, Region a1 x → Region Y x := by
      intro x hx
      obtain ⟨hx1, hx2⟩ := hx
      simp only [Region, hYnb, hYc]
      omega
    have hwalkOld : WalkRT (Region Y) Y.mem a1.fDtorCursor ids
        (a1.heapBlocks.map Prod.fst) t :=
      WalkRT_mono hmono (WalkRT_frame hframe hI1.walk)
    have hwalk : WalkRT (Region Y) Y.mem Y.fDtorCursor (i :: ids)
        (Y.heapBlocks.map Prod.fst) t := by
      rw [hYdc, hYhb]
      refine WalkRT.dtor (q + z + 9) z i (q - a1.fCursor) ids
        (a1.heapBlocks.map Prod.fst) t (by omega)
        (by simp only [Region, hYnb, hYc]; omega)
        (by simp only [Region, hYnb, hYc]; omega)
        (by rw [show q + z + 9 - 9 = q + z from by omega]; exact hm9)
        (by rw [show q + z + 9 - 1 = q + z + 8 from by omega]; exact hm1)
        (by omega) ?_
      rw [show q + z + 9 - 9 - z - (q - a1.fCursor) = a1.fDtorCursor from by omega]
      exact hwalkOld
    have hIY : ArenaInv L Y (i :: ids) t := by
      refine ⟨hwalk, ?_, ?_, ?_, ?_, ?_, ?_, ?_, ?_, ?_⟩
      · rw [hYdc, hYc]
      · rw [hYc, hYe]; omega
      · rw [hYe, hYnb]; exact henb1
      · rw [hYnb]; exact hI1.nb_pos
      · rw [hYc]; intro hcon; omega
      · rw [hYnb]; exact hI1.lb_nb
      · rw [hYhb]; exact hI1.hb_lb
      · rw [hYhb, hYnb]; exact hI1.hb_ub
      · rw [hYhb]; exact hI1.hb_sorted
    subst ha'
    exact ⟨hIY, by rw [hYc, hYdc], by rw [hYc]; omega⟩

theorem makePod_inv {L : Nat} {a : SkArenaAlloc} {z al : Nat} {ids : List Nat}
    {t : Option Nat} {a' : SkArenaAlloc} {p : Nat}
    (hI : ArenaInv L a ids t) (hal1 : 1 ≤ al)
    (h : makePod a z al = some (a', p)) :
    ArenaInv L a' ids t ∧
      a'.fCursor - a'.fDtorCursor ≤ (a.fCursor - a.fDtorCursor) + z + (al - 1) := by
  simp only [makePod] at h
  by_cases hcond : a.fCursor ≠ 0 ∧
      (z : Int) ≤ (a.fEnd : Int) - (alignUpTo a.fCursor al : Int)
  · rw [if_pos hcond] at h
    injection h with h
    rw [Prod.mk.injEq] at h
    obtain ⟨ha', hp⟩ := h
    obtain ⟨hc0, hfit⟩ := hcond
    have hb := alignUpTo_bounds a.fCursor al hal1
    have hdcc := hI.dc_c
    set Y : SkArenaAlloc := { a with fCursor := alignUpTo a.fCursor al + z } with hY
    have hmono : ∀ x, Region a x → Region Y x := by
      intro x hx
      obtain ⟨hx1, hx2⟩ := hx
      simp only [Region, hY]
      omega
    have hIY : ArenaInv L Y ids t := by
      refine ⟨WalkRT_mono hmono hI.walk, by simp only [hY]; omega,
        by simp only [hY]; omega, hI.e_nb, hI.nb_pos, ?_, hI.lb_nb, hI.hb_lb,
        hI.hb_ub, hI.hb_sorted⟩
      simp only [hY]
      intro hcon; omega
    subst ha'
    refine ⟨hIY, by simp only [hY]; omega⟩
  · rw [if_neg hcond] at h
    cases hes : ensureSpace a z al with
    | none => rw [hes] at h; exact Option.noConfusion h
    | some a1 =>
      rw [hes] at h
      obtain ⟨hc1, hdc1, he1, hnb1, _⟩ := ensureSpace_fields hes
      have hI1 := ensureSpace_ArenaInv hI hes
      have h2 : (if (z : Int) ≤ (a1.fEnd : Int) - (alignUpTo a1.fCursor al : Int) then
          some (({ a1 with fCursor := alignUpTo a1.fCursor al + z } : SkArenaAlloc),
            alignUpTo a1.fCursor al)
        else none) = some (a', p) := h
      clear h
      by_cases hfit : (z : Int) ≤ (a1.fEnd : Int) - (alignUpTo a1.fCursor al : Int)
      · rw [if_pos hfit] at h2
        rename' h2 => h
        injection h with h
        rw [Prod.mk.injEq] at h
        obtain ⟨ha', hp⟩ := h
        have hb := alignUpTo_bounds a1.fCursor al hal1
        have hdcc1 := hI1.dc_c
        set Y : SkArenaAlloc := { a1 with fCursor := alignUpTo a1.fCursor al + z } with hY
        have hmono : ∀ x, Region a1 x → Region Y x := by
          intro x hx
          obtain ⟨hx1, hx2⟩ := hx
          simp only [Region, hY]
          omega
        have hIY : ArenaInv L Y ids t := by
          refine ⟨WalkRT_mono hmono hI1.walk, by simp only [hY]; omega,
            by simp only [hY]; omega, hI1.e_nb, hI1.nb_pos, ?_, hI1.lb_nb, hI1.hb_lb,
            hI1.hb_ub, hI1.hb_sorted⟩
          simp only [hY]
          intro hcon; omega
        subst ha'
        refine ⟨hIY, ?_⟩
        rw [hc1] at hb
        simp only [hY]
        rw [hc1, hdc1]
        omega
      · rw [if_neg hfit] at h2
        exact Option.noConfusion h2

theorem runAllocs_inv {L : Nat} :
    ∀ (reqs : List Req) (a : SkArenaAlloc) (ids : List Nat) (t : Option Nat) (i : Nat)
      (a' : SkArenaAlloc),
      ArenaInv L a ids t → ReqsOK reqs →
      a.fCursor - a.fDtorCursor + podCostSum reqs < 2 ^ 31 →
      runAllocs a reqs i = some a' →
      ArenaInv L a' ((objIds reqs i).reverse ++ ids) t := by
  intro reqs
  induction reqs with
  | nil =>
    intro a ids t i a' hI _ _ hrun
    simp only [runAllocs] at hrun
    injection hrun with hrun
    subst hrun
    simpa [objIds] using hI
  | cons r rs ihr =>
    intro a ids t i a' hI hok hbud hrun
    have hokr : ReqsOK rs := fun r hr => hok r (List.mem_cons_of_mem _ hr)
    cases r with
    | pod s k =>
      have hk : k ≤ 8 := hok (Req.pod s k) (List.mem_cons_self _ _)
      have hp1 : 1 ≤ 2 ^ k := Nat.one_le_pow k 2 (by omega)
      have hp2 : 2 ^ k ≤ 256 := by
        calc 2 ^ k ≤ 2 ^ 8 := Nat.pow_le_pow_right (by omega) hk
        _ = 256 := by norm_num
      simp only [runAllocs] at hrun
      cases hmp : makePod a s (2 ^ k) with
      | none => rw [hmp] at hrun; exact Option.noConfusion hrun
      | some res =>
        obtain ⟨a1, q⟩ := res
        rw [hmp] at hrun
        obtain ⟨hI1, hsp⟩ := makePod_inv hI hp1 hmp
        have hcost : podCostSum (Req.pod s k :: rs) = s + 255 + podCostSum rs := by
          simp [podCostSum, podCost]
        have hres := ihr a1 ids t i a' hI1 hokr (by omega) hrun
        simpa [objIds] using hres
    | obj s k =>
      have hk : k ≤ 8 := hok (Req.obj s k) (List.mem_cons_self _ _)
      have hp1 : 1 ≤ 2 ^ k := Nat.one_le_pow k 2 (by omega)
      have hp2 : 2 ^ k ≤ 256 := by
        calc 2 ^ k ≤ 2 ^ 8 := Nat.pow_le_pow_right (by omega) hk
        _ = 256 := by norm_num
      simp only [runAllocs] at hrun
      cases hmo : makeObj a s (2 ^ k) i with
      | none => rw [hmo] at hrun; exact Option.noConfusion hrun
      | some res =>
        obtain ⟨a1, q⟩ := res
        rw [hmo] at hrun
        obtain ⟨hI1, hcd, _⟩ := makeObj_inv hI (by omega) hp1 hp2 hmo
        have hcost : podCostSum (Req.obj s k :: rs) = podCostSum rs := by
          simp [podCostSum, podCost]
        have hres := ihr a1 (i :: ids) t (i + 1) a' hI1 hokr (by omega) hrun
        have hl : ((objIds (Req.obj s k :: rs) i).reverse ++ ids) =
            ((objIds rs (i + 1)).reverse ++ (i :: ids)) := by
          simp [objIds, List.reverse_cons, List.append_assoc]
        rw [hl]
        exact hres

theorem mkSkArenaAlloc_inv_null {L : Nat} (mem0 : Nat → Cell)
    (block size fha nb0 : Nat)
    (hnb : 1 ≤ nb0) (hLnb : L ≤ nb0) (hend : block + ToU32 size ≤ nb0)
    (hnull : size < 9 ∨ block = 0) :
    ArenaInv L (mkSkArenaAlloc mem0 block size fha nb0) [] none := by
  have hu : ToU32 size ≤ nb0 := by
    have := Nat.le_add_left (ToU32 size) block
    omega
  by_cases hs : size < 9
  · have : mkSkArenaAlloc mem0 block size fha nb0 =
        { mem := mem0, fDtorCursor := 0, fCursor := 0, fEnd := 0,
          fNextHeapAlloc := first_allocated_block (ToU32 size) (ToU32 fha),
          fYetNextHeapAlloc := first_allocated_block (ToU32 size) (ToU32 fha),
          nextBase := nb0, heapBlocks := [] } := by
      simp [mkSkArenaAlloc, if_pos hs]
    rw [this]
    exact ⟨WalkRT.done, Nat.le_refl 0, Nat.le_refl 0, Nat.zero_le nb0, hnb,
      fun _ => rfl, hLnb, fun q hq => absurd hq (List.not_mem_nil q),
      fun q hq => absurd hq (List.not_mem_nil q), List.Pairwise.nil⟩
  · have hb0 : block = 0 := by omega
    subst hb0
    have : mkSkArenaAlloc mem0 0 size fha nb0 =
        { mem := mem0, fDtorCursor := 0, fCursor := 0, fEnd := 0 + ToU32 size,
          fNextHeapAlloc := first_allocated_block (ToU32 size) (ToU32 fha),
          fYetNextHeapAlloc := first_allocated_block (ToU32 size) (ToU32 fha),
          nextBase := nb0, heapBlocks := [] } := by
      simp [mkSkArenaAlloc, if_neg hs]
    rw [this]
    refine ⟨WalkRT.done, Nat.le_refl 0, Nat.zero_le _, ?_, hnb,
      fun _ => rfl, hLnb, fun q hq => absurd hq (List.not_mem_nil q),
      fun q hq => absurd hq (List.not_mem_nil q), List.Pairwise.nil⟩
    show (0 : Nat) + ToU32 size ≤ nb0
    omega

theorem mkSkArenaAlloc_inv_sentinel {L : Nat} (mem0 : Nat → Cell)
    (block size fha nb0 : Nat)
    (hb1 : 1 ≤ block) (hs9 : 9 ≤ size) (hs32 : size < 4294967296)
    (hend : block + size ≤ nb0) (hLnb : L ≤ nb0) :
    ArenaInv L (mkSkArenaAlloc mem0 block size fha nb0) [] (some (block + 9)) := by
  have hu : ToU32 size = size := Nat.mod_eq_of_lt hs32
  have hmk : mkSkArenaAlloc mem0 block size fha nb0 =
      installFooter
        { mem := mem0, fDtorCursor := block, fCursor := block, fEnd := block + size,
          fNextHeapAlloc := first_allocated_block (ToU32 size) (ToU32 fha),
          fYetNextHeapAlloc := first_allocated_block (ToU32 size) (ToU32 fha),
          nextBase := nb0, heapBlocks := [] } FooterActionV.endChain 0 := by
    simp only [mkSkArenaAlloc]
    rw [if_neg (by omega : ¬size < 9), hu]
    rw [if_pos]
    exact (by omega : block ≠ 0)
  rw [hmk]
  set X := installFooter
      { mem := mem0, fDtorCursor := block, fCursor := block, fEnd := block + size,
        fNextHeapAlloc := first_allocated_block (ToU32 size) (ToU32 fha),
        fYetNextHeapAlloc := first_allocated_block (ToU32 size) (ToU32 fha),
        nextBase := nb0, heapBlocks := [] } FooterActionV.endChain 0 with hX
  have hXc : X.fCursor = block + 9 := by
    simp only [hX, installFooter, installRawByte, installRawAction]
  have hXdc : X.fDtorCursor = block + 9 := by
    simp only [hX, installFooter, installRawByte, installRawAction]
  have hXe : X.fEnd = block + size := rfl
  have hXnb : X.nextBase = nb0 := rfl
  have hXhb : X.heapBlocks = ([] : List (Nat × Nat)) := rfl
  have hXmem : X.mem = writeCell (writeCell mem0
      block 8 (Cell.actionC FooterActionV.endChain)) (block + 8) 1 (Cell.byteC 0) := by
    simp only [hX, installFooter, installRawByte, installRawAction]
  have hm0 : X.mem block = Cell.actionC FooterActionV.endChain := by
    rw [hXmem, writeCell_out _ _ _ _ _ (by omega) (by omega), writeCell_at]
  have hm8 : X.mem (block + 8) = Cell.byteC 0 := by
    rw [hXmem, writeCell_at]
  refine ⟨?_, ?_, ?_, ?_, ?_, ?_, ?_, ?_, ?_, ?_⟩
  · rw [hXdc, hXhb]
    refine WalkRT.stop (block + 9) (by omega)
      (by simp only [Region, hXnb, hXc]; omega)
      (by simp only [Region, hXnb, hXc]; omega)
      (by rw [show block + 9 - 9 = block from by omega]; exact hm0)
      (by rw [show block + 9 - 1 = block + 8 from by omega]; exact hm8)
  · rw [hXdc, hXc]
  · rw [hXc, hXe]; omega
  · rw [hXe, hXnb]; omega
  · rw [hXnb]; omega
  · rw [hXc]; intro hcon; omega
  · rw [hXnb]; exact hLnb
  · rw [hXhb]; simp
  · rw [hXhb]; simp
  · rw [hXhb]; simp

theorem objIds_ge : ∀ (reqs : List Req) (i : Nat), ∀ j ∈ objIds reqs i, i ≤ j := by
  intro reqs
  induction reqs with
  | nil => intro i j hj; simp [objIds] at hj
  | cons r rs ih =>
    intro i j hj
    cases r with
    | pod s k => exact ih i j hj
    | obj s k =>
      simp only [objIds, List.mem_cons] at hj
      rcases hj with rfl | hj
      · exact Nat.le_refl j
      · exact le_trans (by omega) (ih (i + 1) j hj)

theorem objIds_nodup : ∀ (reqs : List Req) (i : Nat), (objIds reqs i).Nodup := by
  intro reqs
  induction reqs with
  | nil => intro i; simp [objIds]
  | cons r rs ih =>
    intro i
    cases r with
    | pod s k => exact ih i
    | obj s k =>
      simp only [objIds]
      rw [List.nodup_cons]
      refine ⟨fun hmem => ?_, ih (i + 1)⟩
      have := objIds_ge rs (i + 1) i hmem
      omega

theorem podCostSum_objOnly (reqs : List Req) (h : ∀ r ∈ reqs, objOnlyOK r) :
    podCostSum reqs = 0 := by
  induction reqs with
  | nil => rfl
  | cons r rs ih =>
    cases r with
    | pod s k => exact absurd (h (Req.pod s k) (List.mem_cons_self _ _)) id
    | obj s k =>
      have : podCostSum rs = 0 := ih (fun r hr => h r (List.mem_cons_of_mem _ hr))
      simp [podCostSum, podCost] at this ⊢
      exact this

theorem mkSkArenaAlloc_cursor_dtor (mem0 : Nat → Cell) (block size fha nb0 : Nat) :
    (mkSkArenaAlloc mem0 block size fha nb0).fCursor =
      (mkSkArenaAlloc mem0 block size fha nb0).fDtorCursor := by
  simp only [mkSkArenaAlloc]
  split_ifs <;> rfl

theorem mkSkArenaAlloc_inv {L : Nat} (mem0 : Nat → Cell) (block size fha nb0 : Nat)
    (hnb : 1 ≤ nb0) (hLnb : L ≤ nb0) (hend : block + ToU32 size ≤ nb0)
    (hs32 : size < 4294967296) :
    ∃ t, ArenaInv L (mkSkArenaAlloc mem0 block size fha nb0) [] t := by
  by_cases h : size < 9 ∨ block = 0
  · exact ⟨none, mkSkArenaAlloc_inv_null mem0 block size fha nb0 hnb hLnb hend h⟩
  · push_neg at h
    have hu : ToU32 size = size := Nat.mod_eq_of_lt hs32
    exact ⟨some (block + 9), mkSkArenaAlloc_inv_sentinel mem0 block size fha nb0
      (by omega) (by omega) hs32 (by omega) hLnb⟩

/-- C1: for every sequence of N destructible allocations made through the
arena (possibly spanning multiple growth blocks), teardown — the
`RunDtorsOnBlock` walk from the final `fDtorCursor`, exactly what
`~SkArenaAlloc` runs — invokes each allocation's destructor exactly once
(the id list is duplicate-free), in exactly reverse allocation order,
continuing across block boundaries via the `NextBlock` back-pointers until
the end-of-chain terminator. -/
theorem spec_C1_destruction_order (mem0 : Nat → Cell)
    (block size fha nb0 : Nat) (reqs : List Req) (i : Nat) (a' : SkArenaAlloc)
    (hnb : 1 ≤ nb0) (hend : block + ToU32 size ≤ nb0) (hs32 : size < 4294967296)
    (hobj : ∀ r ∈ reqs, objOnlyOK r)
    (hrun : runAllocs (mkSkArenaAlloc mem0 block size fha nb0) reqs i = some a') :
    (∃ fuel, RunDtorsOnBlock a'.mem fuel a'.fDtorCursor =
        some ((objIds reqs i).reverse, a'.heapBlocks.map Prod.fst)) ∧
      (objIds reqs i).Nodup := by
  obtain ⟨t, hI0⟩ := mkSkArenaAlloc_inv (L := nb0) mem0 block size fha nb0 hnb
    (le_refl nb0) hend hs32
  have hok : ReqsOK reqs := by
    intro r hr
    cases r with
    | pod s k => exact absurd (hobj _ hr) id
    | obj s k => exact hobj _ hr
  have hcd := mkSkArenaAlloc_cursor_dtor mem0 block size fha nb0
  have hpc := podCostSum_objOnly reqs hobj
  have hfin := runAllocs_inv reqs (mkSkArenaAlloc mem0 block size fha nb0) [] t i a'
    hI0 hok (by rw [hcd, hpc]; omega) hrun
  have hwalk := hfin.walk
  rw [List.append_nil] at hwalk
  exact ⟨WalkRT_adequate hwalk, objIds_nodup reqs i⟩

/-- C7: under any request sequence, the caller-supplied first block is never
freed by the arena while every heap block created during growth is freed
exactly once — the teardown walk's `delete []` log is exactly the list of
heap block bases in creation order, duplicate-free, and does not contain
the caller block. -/
theorem spec_C7_block_ownership (mem0 : Nat → Cell)
    (block size fha nb0 : Nat) (reqs : List Req) (i : Nat) (a' : SkArenaAlloc)
    (hnb : 1 ≤ nb0) (hend : block + ToU32 size ≤ nb0) (hblt : block < nb0)
    (hs32 : size < 4294967296) (hok : ReqsOK reqs)
    (hbud : podCostSum reqs < 2 ^ 31)
    (hrun : runAllocs (mkSkArenaAlloc mem0 block size fha nb0) reqs i = some a') :
    ∃ fuel ids, RunDtorsOnBlock a'.mem fuel a'.fDtorCursor =
        some (ids, a'.heapBlocks.map Prod.fst) ∧
      (a'.heapBlocks.map Prod.fst).Nodup ∧
      block ∉ a'.heapBlocks.map Prod.fst := by
  obtain ⟨t, hI0⟩ := mkSkArenaAlloc_inv (L := nb0) mem0 block size fha nb0 hnb
    (le_refl nb0) hend hs32
  have hcd := mkSkArenaAlloc_cursor_dtor mem0 block size fha nb0
  have hfin := runAllocs_inv reqs (mkSkArenaAlloc mem0 block size fha nb0) [] t i a'
    hI0 hok (by rw [hcd]; omega) hrun
  obtain ⟨fuel, hf⟩ := WalkRT_adequate hfin.walk
  refine ⟨fuel, _, hf, ?_, ?_⟩
  · exact List.Pairwise.imp (fun hlt => Nat.ne_of_lt hlt) hfin.hb_sorted
  · intro hmem
    obtain ⟨q, hqmem, hq1⟩ := List.mem_map.mp hmem
    have := hfin.hb_lb q hqmem
    omega

/-- C8: for every arena built over a caller block that holds at least one
footer, the end-of-chain sentinel is installed at construction at the very
start of the block and is never overwritten by any later allocation, and
the footer chain from the current `fDtorCursor` always terminates at that
sentinel (whose decode at footer end `block + 9` returns the null
terminator). -/
theorem spec_C8_sentinel_terminates (mem0 : Nat → Cell)
    (block size fha nb0 : Nat) (reqs : List Req) (i : Nat) (a' : SkArenaAlloc)
    (hb1 : 1 ≤ block) (hs9 : 9 ≤ size) (hs32 : size < 4294967296)
    (hnb : block + size ≤ nb0) (hok : ReqsOK reqs)
    (hbud : podCostSum reqs < 2 ^ 31)
    (hrun : runAllocs (mkSkArenaAlloc mem0 block size fha nb0) reqs i = some a') :
    a'.mem block = Cell.actionC FooterActionV.endChain ∧
    a'.mem (block + 8) = Cell.byteC 0 ∧
    ∃ ids, WalkRT (Region a') a'.mem a'.fDtorCursor ids
      (a'.heapBlocks.map Prod.fst) (some (block + 9)) := by
  have hI0 := mkSkArenaAlloc_inv_sentinel (L := nb0) mem0 block size fha nb0 hb1 hs9
    hs32 hnb (le_refl nb0)
  have hcd := mkSkArenaAlloc_cursor_dtor mem0 block size fha nb0
  have hfin := runAllocs_inv reqs (mkSkArenaAlloc mem0 block size fha nb0) []
    (some (block + 9)) i a' hI0 hok (by rw [hcd]; omega) hrun
  have hterm := WalkRT_terminal hfin.walk
  refine ⟨?_, ?_, ⟨_, hfin.walk⟩⟩
  · have h1 := hterm.1
    rwa [show block + 9 - 9 = block from by omega] at h1
  · have h2 := hterm.2
    rwa [show block + 9 - 1 = block + 8 from by omega] at h2

theorem allocLoop_null_heap :
    ∀ (fuel : Nat) (a : SkArenaAlloc) (sizeIncl al : Nat) (a' : SkArenaAlloc) (p : Nat),
      1 ≤ al →
      allocLoop fuel a sizeIncl al = some (a', p) →
      min a.fCursor a.nextBase ≤ p ∧
      a.heapBlocks.length ≤ a'.heapBlocks.length ∧
      (a.fCursor = 0 → a.nextBase ≤ p ∧ a.heapBlocks.length < a'.heapBlocks.length) := by
  intro fuel
  induction fuel with
  | zero =>
    intro a sizeIncl al a' p _ hrun
    exact Option.noConfusion hrun
  | succ n ih =>
    intro a sizeIncl al a' p hal1 hrun
    simp only [allocLoop] at hrun
    by_cases hc0 : a.fCursor = 0
    · rw [if_pos hc0] at hrun
      cases hes : ensureSpace a (sizeIncl + if a.fCursor ≠ a.fDtorCursor then 13 else 0) al with
      | none => rw [hes] at hrun; exact Option.noConfusion hrun
      | some a1 =>
        rw [hes] at hrun
        obtain ⟨hc1, _, _, hnb1, hhb1, _⟩ := ensureSpace_fields hes
        obtain ⟨hmin, hlen, _⟩ := ih a1 sizeIncl al a' p hal1 hrun
        rw [hc1, hnb1] at hmin
        rw [hhb1] at hlen
        simp only [List.length_append, List.length_singleton] at hlen
        refine ⟨by omega, by omega, fun _ => ⟨by omega, by omega⟩⟩
    · rw [if_neg hc0] at hrun
      by_cases hfit : ((sizeIncl + if a.fCursor ≠ a.fDtorCursor then 13 else 0 : Nat) : Int) >
          (a.fEnd : Int) -
            (alignUpTo (a.fCursor + if a.fCursor ≠ a.fDtorCursor then 13 else 0) al : Int)
      · rw [if_pos hfit] at hrun
        cases hes : ensureSpace a (sizeIncl + if a.fCursor ≠ a.fDtorCursor then 13 else 0) al with
        | none => rw [hes] at hrun; exact Option.noConfusion hrun
        | some a1 =>
          rw [hes] at hrun
          obtain ⟨hc1, _, _, hnb1, hhb1, _⟩ := ensureSpace_fields hes
          obtain ⟨hmin, hlen, _⟩ := ih a1 sizeIncl al a' p hal1 hrun
          rw [hc1, hnb1] at hmin
          rw [hhb1] at hlen
          simp only [List.length_append, List.length_singleton] at hlen
          refine ⟨by omega, by omega, fun hcon => absurd hcon hc0⟩
      · rw [if_neg hfit] at hrun
        injection hrun with hrun
        rw [Prod.mk.injEq] at hrun
        obtain ⟨ha', hp⟩ := hrun
        have hb := alignUpTo_bounds
          (a.fCursor + if a.fCursor ≠ a.fDtorCursor then 13 else 0) al hal1
        by_cases hsk : a.fCursor = a.fDtorCursor
        · simp only [if_neg (not_not_intro hsk)] at ha' hb hp
          subst ha'
          refine ⟨by omega, le_refl _, fun hcon => absurd hcon hc0⟩
        · simp only [if_pos hsk] at ha' hb hp
          subst ha'
          refine ⟨by omega, ?_, fun hcon => absurd hcon hc0⟩
          simp only [installFooter, installRawByte, installRawU32, installRawAction]
          exact le_refl _

/-- C3: every arithmetic step of `ensureSpace` whose result would not be
representable in the allocator's 32-bit size type — the object size plus
footer overhead, that plus the alignment overhead, or the final round-up —
triggers the release-mode fatal assertion (modelled as the `none` result:
there is no recoverable-error return), and on the non-fatal path no size
computation wraps modulo `2 ^ 32`: the recorded block size equals the exact
natural-number value, which stays at or below `maxSize`. -/
theorem spec_C3_overflow_fatal (a : SkArenaAlloc) (size al : Nat) :
    (ensureSpace a size al = none ↔
      maxSize < size + 26 ∨ maxSize < size + 26 + (al - 1) ∨
      maxSize < max (size + 26 + (al - 1)) a.fNextHeapAlloc +
        (if max (size + 26 + (al - 1)) a.fNextHeapAlloc > 32768 then 4095 else 15)) ∧
    ∀ a', ensureSpace a size al = some a' →
      a'.heapBlocks = a.heapBlocks ++ [(a.nextBase, finalBlockSize a size al)] ∧
      size + 26 + (al - 1) ≤ finalBlockSize a size al ∧
      finalBlockSize a size al ≤ maxSize := by
  refine ⟨ensureSpace_none_iff a size al, ?_⟩
  intro a' h
  obtain ⟨_, _, _, _, hhb, _, _, _, hge, _, hle⟩ := ensureSpace_fields h
  exact ⟨hhb, hge, hle⟩

/-- C4: on every non-fatal `ensureSpace` call, the new block's minimum size
is taken from the pre-call `fNextHeapAlloc` (the final size is at least
it), and the counter pair advances Fibonacci-style
`(fNextHeapAlloc, fYetNextHeapAlloc) ← (fYetNextHeapAlloc,
fNextHeapAlloc + fYetNextHeapAlloc)`, except that when the sum would exceed
the maximum representable 32-bit size, `fNextHeapAlloc` saturates at that
maximum (and `fYetNextHeapAlloc` is left unchanged) instead of wrapping. -/
theorem spec_C4_fibonacci_counters (a : SkArenaAlloc) (size al : Nat) (a' : SkArenaAlloc)
    (hb : a.fNextHeapAlloc ≤ maxSize)
    (h : ensureSpace a size al = some a') :
    (a.fNextHeapAlloc + a.fYetNextHeapAlloc ≤ maxSize →
      a'.fNextHeapAlloc = a.fYetNextHeapAlloc ∧
      a'.fYetNextHeapAlloc = a.fNextHeapAlloc + a.fYetNextHeapAlloc) ∧
    (maxSize < a.fNextHeapAlloc + a.fYetNextHeapAlloc →
      a'.fNextHeapAlloc = maxSize ∧ a'.fYetNextHeapAlloc = a.fYetNextHeapAlloc) ∧
    a.fNextHeapAlloc ≤ finalBlockSize a size al ∧
    a'.heapBlocks = a.heapBlocks ++ [(a.nextBase, finalBlockSize a size al)] := by
  obtain ⟨_, _, _, _, hhb, _, hnha, hynha, _, hgemin, _⟩ := ensureSpace_fields h
  have hms : maxSize = 4294967295 := rfl
  refine ⟨?_, ?_, hgemin, hhb⟩
  · intro hsum
    rw [hnha, hynha, if_pos (by omega), if_pos (by omega)]
    exact ⟨rfl, rfl⟩
  · intro hsum
    rw [hnha, hynha, if_neg (by omega), if_neg (by omega)]
    exact ⟨rfl, rfl⟩

/-- C5: on every non-fatal `ensureSpace` call, the size of the newly
created block equals `max(objSizeAndOverhead, minAllocationSize)` rounded
up to a 4096-byte boundary when that maximum exceeds 32768 bytes, and to a
16-byte boundary otherwise. -/
theorem spec_C5_block_rounding (a : SkArenaAlloc) (size al : Nat) (a' : SkArenaAlloc)
    (h : ensureSpace a size al = some a') :
    a'.heapBlocks = a.heapBlocks ++ [(a.nextBase, finalBlockSize a size al)] ∧
    (32768 < preRoundSize a size al →
      finalBlockSize a size al % 4096 = 0 ∧
      preRoundSize a size al ≤ finalBlockSize a size al ∧
      finalBlockSize a size al < preRoundSize a size al + 4096) ∧
    (preRoundSize a size al ≤ 32768 →
      finalBlockSize a size al % 16 = 0 ∧
      preRoundSize a size al ≤ finalBlockSize a size al ∧
      finalBlockSize a size al < preRoundSize a size al + 16) := by
  obtain ⟨_, _, _, _, hhb, _⟩ := ensureSpace_fields h
  refine ⟨hhb, ?_, ?_⟩
  · intro hgt
    have hfb : finalBlockSize a size al = roundUpMask (preRoundSize a size al) 4095 := by
      unfold finalBlockSize
      rw [if_pos hgt]
    have hbnd := roundUpMask_bounds (preRoundSize a size al) 4095
    rw [hfb]
    refine ⟨?_, hbnd.1, by omega⟩
    have := hbnd.2.2
    norm_num at this
    exact this
  · intro hle
    have hfb : finalBlockSize a size al = roundUpMask (preRoundSize a size al) 15 := by
      unfold finalBlockSize
      rw [if_neg (by omega)]
    have hbnd := roundUpMask_bounds (preRoundSize a size al) 15
    rw [hfb]
    refine ⟨?_, hbnd.1, by omega⟩
    have := hbnd.2.2
    norm_num at this
    exact this

/-- C9 counterexample: on an arena whose caller block is exhausted, a large
destructible request followed by a small one — each exceeding the remaining
capacity of the then-active block, so each creating a heap block — yields
heap blocks of sizes 5040 and then 96: the block-size sequence strictly
decreases, so it is not non-decreasing as the claim states. -/
theorem spec_C9_counterexample :
    (getA (runAllocs (mkSkArenaAlloc (fun _ => Cell.uninit) 16 16 0 48)
        [Req.obj 5000 0] 0)).heapBlocks.map Prod.snd = [5040] ∧
    (getA (runAllocs (mkSkArenaAlloc (fun _ => Cell.uninit) 16 16 0 48)
        [Req.obj 5000 0, Req.obj 50 0] 0)).heapBlocks.map Prod.snd = [5040, 96] ∧
    ¬ (5040 : Nat) ≤ 96 := by
  refine ⟨by decide, by decide, by decide⟩

/-- C9 (amended): under repeated growth the minimum-size floors taken from
`fNextHeapAlloc` are non-decreasing and never exceed the representable
maximum (saturating there instead of wrapping), every created block's size
is at least the consumed floor and never exceeds the maximum, and a request
whose overhead-inclusive size would overflow triggers the fatal path
instead of wrapping; the sizes of the created blocks themselves need not be
monotone, since they also track the per-request demand. -/
theorem spec_C9_floor_monotone (a : SkArenaAlloc) (size al : Nat) :
    (maxSize < size + 26 → ensureSpace a size al = none) ∧
    ∀ a', (a.fNextHeapAlloc ≤ a.fYetNextHeapAlloc ∨ a.fNextHeapAlloc = maxSize) →
      a.fNextHeapAlloc ≤ maxSize → a.fYetNextHeapAlloc ≤ maxSize →
      1 ≤ a.fYetNextHeapAlloc →
      ensureSpace a size al = some a' →
      a.fNextHeapAlloc ≤ a'.fNextHeapAlloc ∧
      (a'.fNextHeapAlloc ≤ a'.fYetNextHeapAlloc ∨ a'.fNextHeapAlloc = maxSize) ∧
      a'.fNextHeapAlloc ≤ maxSize ∧ a'.fYetNextHeapAlloc ≤ maxSize ∧
      1 ≤ a'.fYetNextHeapAlloc ∧
      a.fNextHeapAlloc ≤ finalBlockSize a size al ∧
      finalBlockSize a size al ≤ maxSize := by
  constructor
  · intro hov
    rw [ensureSpace_none_iff]
    exact Or.inl hov
  · intro a' hinv hb1 hb2 hy1 h
    obtain ⟨_, _, _, _, _, _, hnha, hynha, _, hgemin, hle⟩ := ensureSpace_fields h
    have hms : maxSize = 4294967295 := rfl
    by_cases hsum : a.fYetNextHeapAlloc ≤ maxSize - a.fNextHeapAlloc
    · rw [hnha, hynha, if_pos hsum, if_pos hsum]
      refine ⟨?_, Or.inl (by omega), by omega, by omega, by omega, hgemin, hle⟩
      rcases hinv with hinv | hinv
      · exact hinv
      · omega
    · rw [hnha, hynha, if_neg hsum, if_neg hsum]
      exact ⟨by omega, Or.inr rfl, by omega, by omega, by omega, hgemin, hle⟩

/-- C10: constructing an arena over a caller block smaller than one footer
(including size zero) nulls all three cursors, installs no sentinel and
never touches the caller's buffer (the memory is returned unchanged, and
the model's allocation path never reads memory at all); destroying such an
arena before any allocation performs no destructor call and frees nothing;
and the first allocation detects the null cursor and obtains its space
purely via heap growth: a heap block is created and the returned address
lies at or above the heap frontier, beyond the caller's buffer. -/
theorem spec_C10_undersized_block (mem0 : Nat → Cell) (block size fha nb0 : Nat)
    (z al i : Nat) (a' : SkArenaAlloc) (p : Nat)
    (hs : size < 9) (hal1 : 1 ≤ al)
    (hmo : makeObj (mkSkArenaAlloc mem0 block size fha nb0) z al i = some (a', p)) :
    (mkSkArenaAlloc mem0 block size fha nb0).fCursor = 0 ∧
    (mkSkArenaAlloc mem0 block size fha nb0).fDtorCursor = 0 ∧
    (mkSkArenaAlloc mem0 block size fha nb0).fEnd = 0 ∧
    (mkSkArenaAlloc mem0 block size fha nb0).mem = mem0 ∧
    (∀ fuel, RunDtorsOnBlock mem0 fuel 0 = some ([], [])) ∧
    nb0 ≤ p ∧ a'.heapBlocks ≠ [] := by
  have hmk : mkSkArenaAlloc mem0 block size fha nb0 =
      { mem := mem0, fDtorCursor := 0, fCursor := 0, fEnd := 0,
        fNextHeapAlloc := first_allocated_block (ToU32 size) (ToU32 fha),
        fYetNextHeapAlloc := first_allocated_block (ToU32 size) (ToU32 fha),
        nextBase := nb0, heapBlocks := [] } := by
    simp [mkSkArenaAlloc, if_pos hs]
  simp only [makeObj, allocObjectWithFooter] at hmo
  cases hA : allocLoop 3 (mkSkArenaAlloc mem0 block size fha nb0) (z + 9) al with
  | none => rw [hA] at hmo; exact Option.noConfusion hmo
  | some res =>
    obtain ⟨a1, q⟩ := res
    rw [hA] at hmo
    injection hmo with hmo
    rw [Prod.mk.injEq] at hmo
    obtain ⟨ha', hp⟩ := hmo
    obtain ⟨hmin, hlen, hnull⟩ := allocLoop_null_heap 3
      (mkSkArenaAlloc mem0 block size fha nb0) (z + 9) al a1 q hal1 hA
    obtain ⟨hq, hheap⟩ := hnull (by rw [hmk])
    have hq2 : nb0 ≤ q := by rw [hmk] at hq; exact hq
    have hheap2 : 0 < a1.heapBlocks.length := by
      rw [hmk] at hheap
      simpa using hheap
    refine ⟨by rw [hmk], by rw [hmk], by rw [hmk], by rw [hmk],
      fun fuel => by cases fuel <;> rfl, by omega, ?_⟩
    rw [← ha']
    show a1.heapBlocks ≠ []
    intro hcon
    rw [hcon] at hheap2
    simp at hheap2

theorem spec_C1_destruction_order_witness :
    (∃ fuel, RunDtorsOnBlock (getA (runAllocs (mkSkArenaAlloc (fun _ => Cell.uninit) 32 32 0 64)
          [Req.obj 10 0, Req.obj 30 0, Req.obj 40 0] 0)).mem fuel
        (getA (runAllocs (mkSkArenaAlloc (fun _ => Cell.uninit) 32 32 0 64)
          [Req.obj 10 0, Req.obj 30 0, Req.obj 40 0] 0)).fDtorCursor =
      some ([2, 1, 0],
        (getA (runAllocs (mkSkArenaAlloc (fun _ => Cell.uninit) 32 32 0 64)
          [Req.obj 10 0, Req.obj 30 0, Req.obj 40 0] 0)).heapBlocks.map Prod.fst)) ∧
      ([0, 1, 2] : List Nat).Nodup :=
  spec_C1_destruction_order (fun _ => Cell.uninit) 32 32 0 64
    [Req.obj 10 0, Req.obj 30 0, Req.obj 40 0] 0
    (getA (runAllocs (mkSkArenaAlloc (fun _ => Cell.uninit) 32 32 0 64)
      [Req.obj 10 0, Req.obj 30 0, Req.obj 40 0] 0))
    (by decide) (by decide) (by decide) (by decide) rfl

theorem spec_C7_block_ownership_witness :
    ∃ fuel ids, RunDtorsOnBlock (getA (runAllocs (mkSkArenaAlloc (fun _ => Cell.uninit) 32 32 0 64)
          [Req.pod 5 0, Req.obj 10 0, Req.obj 40 0] 0)).mem fuel
        (getA (runAllocs (mkSkArenaAlloc (fun _ => Cell.uninit) 32 32 0 64)
          [Req.pod 5 0, Req.obj 10 0, Req.obj 40 0] 0)).fDtorCursor =
      some (ids,
        (getA (runAllocs (mkSkArenaAlloc (fun _ => Cell.uninit) 32 32 0 64)
          [Req.pod 5 0, Req.obj 10 0, Req.obj 40 0] 0)).heapBlocks.map Prod.fst) ∧
      ((getA (runAllocs (mkSkArenaAlloc (fun _ => Cell.uninit) 32 32 0 64)
          [Req.pod 5 0, Req.obj 10 0, Req.obj 40 0] 0)).heapBlocks.map Prod.fst).Nodup ∧
      32 ∉ (getA (runAllocs (mkSkArenaAlloc (fun _ => Cell.uninit) 32 32 0 64)
          [Req.pod 5 0, Req.obj 10 0, Req.obj 40 0] 0)).heapBlocks.map Prod.fst :=
  spec_C7_block_ownership (fun _ => Cell.uninit) 32 32 0 64
    [Req.pod 5 0, Req.obj 10 0, Req.obj 40 0] 0
    (getA (runAllocs (mkSkArenaAlloc (fun _ => Cell.uninit) 32 32 0 64)
      [Req.pod 5 0, Req.obj 10 0, Req.obj 40 0] 0))
    (by decide) (by decide) (by decide) (by decide) (by decide) (by decide) rfl

theorem spec_C8_sentinel_terminates_witness :
    (getA (runAllocs (mkSkArenaAlloc (fun _ => Cell.uninit) 32 32 0 64)
        [Req.obj 10 0, Req.obj 30 0, Req.obj 40 0] 0)).mem 32 =
      Cell.actionC FooterActionV.endChain ∧
    (getA (runAllocs (mkSkArenaAlloc (fun _ => Cell.uninit) 32 32 0 64)
        [Req.obj 10 0, Req.obj 30 0, Req.obj 40 0] 0)).mem (32 + 8) = Cell.byteC 0 ∧
    ∃ ids, WalkRT
      (Region (getA (runAllocs (mkSkArenaAlloc (fun _ => Cell.uninit) 32 32 0 64)
        [Req.obj 10 0, Req.obj 30 0, Req.obj 40 0] 0)))
      (getA (runAllocs (mkSkArenaAlloc (fun _ => Cell.uninit) 32 32 0 64)
        [Req.obj 10 0, Req.obj 30 0, Req.obj 40 0] 0)).mem
      (getA (runAllocs (mkSkArenaAlloc (fun _ => Cell.uninit) 32 32 0 64)
        [Req.obj 10 0, Req.obj 30 0, Req.obj 40 0] 0)).fDtorCursor ids
      ((getA (runAllocs (mkSkArenaAlloc (fun _ => Cell.uninit) 32 32 0 64)
        [Req.obj 10 0, Req.obj 30 0, Req.obj 40 0] 0)).heapBlocks.map Prod.fst)
      (some (32 + 9)) :=
  spec_C8_sentinel_terminates (fun _ => Cell.uninit) 32 32 0 64
    [Req.obj 10 0, Req.obj 30 0, Req.obj 40 0] 0
    (getA (runAllocs (mkSkArenaAlloc (fun _ => Cell.uninit) 32 32 0 64)
      [Req.obj 10 0, Req.obj 30 0, Req.obj 40 0] 0))
    (by decide) (by decide) (by decide) (by decide) (by decide) (by decide) rfl

theorem spec_C3_overflow_fatal_witness :
    (ensureSpace sampleArena 5009 1 = none ↔
      maxSize < 5009 + 26 ∨ maxSize < 5009 + 26 + (1 - 1) ∨
      maxSize < max (5009 + 26 + (1 - 1)) sampleArena.fNextHeapAlloc +
        (if max (5009 + 26 + (1 - 1)) sampleArena.fNextHeapAlloc > 32768 then 4095
         else 15)) ∧
    (getA (ensureSpace sampleArena 5009 1)).heapBlocks =
        sampleArena.heapBlocks ++ [(sampleArena.nextBase, finalBlockSize sampleArena 5009 1)] ∧
      5009 + 26 + (1 - 1) ≤ finalBlockSize sampleArena 5009 1 ∧
      finalBlockSize sampleArena 5009 1 ≤ maxSize :=
  ⟨(spec_C3_overflow_fatal sampleArena 5009 1).1,
   (spec_C3_overflow_fatal sampleArena 5009 1).2
     (getA (ensureSpace sampleArena 5009 1)) rfl⟩

theorem spec_C4_fibonacci_counters_witness :
    (sampleArena.fNextHeapAlloc + sampleArena.fYetNextHeapAlloc ≤ maxSize →
      (getA (ensureSpace sampleArena 5009 1)).fNextHeapAlloc =
          sampleArena.fYetNextHeapAlloc ∧
        (getA (ensureSpace sampleArena 5009 1)).fYetNextHeapAlloc =
          sampleArena.fNextHeapAlloc + sampleArena.fYetNextHeapAlloc) ∧
    (maxSize < sampleArena.fNextHeapAlloc + sampleArena.fYetNextHeapAlloc →
      (getA (ensureSpace sampleArena 5009 1)).fNextHeapAlloc = maxSize ∧
        (getA (ensureSpace sampleArena 5009 1)).fYetNextHeapAlloc =
          sampleArena.fYetNextHeapAlloc) ∧
    sampleArena.fNextHeapAlloc ≤ finalBlockSize sampleArena 5009 1 ∧
    (getA (ensureSpace sampleArena 5009 1)).heapBlocks =
      sampleArena.heapBlocks ++
        [(sampleArena.nextBase, finalBlockSize sampleArena 5009 1)] :=
  spec_C4_fibonacci_counters sampleArena 5009 1 (getA (ensureSpace sampleArena 5009 1))
    (by decide) rfl

theorem spec_C5_block_rounding_witness :
    ((getA (ensureSpace sampleArena 40000 1)).heapBlocks =
      sampleArena.heapBlocks ++
        [(sampleArena.nextBase, finalBlockSize sampleArena 40000 1)] ∧
    (32768 < preRoundSize sampleArena 40000 1 →
      finalBlockSize sampleArena 40000 1 % 4096 = 0 ∧
      preRoundSize sampleArena 40000 1 ≤ finalBlockSize sampleArena 40000 1 ∧
      finalBlockSize sampleArena 40000 1 < preRoundSize sampleArena 40000 1 + 4096) ∧
    (preRoundSize sampleArena 40000 1 ≤ 32768 →
      finalBlockSize sampleArena 40000 1 % 16 = 0 ∧
      preRoundSize sampleArena 40000 1 ≤ finalBlockSize sampleArena 40000 1 ∧
      finalBlockSize sampleArena 40000 1 < preRoundSize sampleArena 40000 1 + 16)) ∧
    ((getA (ensureSpace sampleArena 100 1)).heapBlocks =
      sampleArena.heapBlocks ++
        [(sampleArena.nextBase, finalBlockSize sampleArena 100 1)] ∧
    (32768 < preRoundSize sampleArena 100 1 →
      finalBlockSize sampleArena 100 1 % 4096 = 0 ∧
      preRoundSize sampleArena 100 1 ≤ finalBlockSize sampleArena 100 1 ∧
      finalBlockSize sampleArena 100 1 < preRoundSize sampleArena 100 1 + 4096) ∧
    (preRoundSize sampleArena 100 1 ≤ 32768 →
      finalBlockSize sampleArena 100 1 % 16 = 0 ∧
      preRoundSize sampleArena 100 1 ≤ finalBlockSize sampleArena 100 1 ∧
      finalBlockSize sampleArena 100 1 < preRoundSize sampleArena 100 1 + 16)) :=
  ⟨spec_C5_block_rounding sampleArena 40000 1
      (getA (ensureSpace sampleArena 40000 1)) rfl,
   spec_C5_block_rounding sampleArena 100 1
      (getA (ensureSpace sampleArena 100 1)) rfl⟩

theorem spec_C9_floor_monotone_witness :
    (maxSize < 10 + 26 → ensureSpace sampleArena 10 1 = none) ∧
    sampleArena.fNextHeapAlloc ≤ (getA (ensureSpace sampleArena 10 1)).fNextHeapAlloc ∧
    ((getA (ensureSpace sampleArena 10 1)).fNextHeapAlloc ≤
        (getA (ensureSpace sampleArena 10 1)).fYetNextHeapAlloc ∨
      (getA (ensureSpace sampleArena 10 1)).fNextHeapAlloc = maxSize) ∧
    (getA (ensureSpace sampleArena 10 1)).fNextHeapAlloc ≤ maxSize ∧
    (getA (ensureSpace sampleArena 10 1)).fYetNextHeapAlloc ≤ maxSize ∧
    1 ≤ (getA (ensureSpace sampleArena 10 1)).fYetNextHeapAlloc ∧
    sampleArena.fNextHeapAlloc ≤ finalBlockSize sampleArena 10 1 ∧
    finalBlockSize sampleArena 10 1 ≤ maxSize := by
  have h := spec_C9_floor_monotone sampleArena 10 1
  have h2 := h.2 (getA (ensureSpace sampleArena 10 1)) (by decide) (by decide)
    (by decide) (by decide) rfl
  exact ⟨h.1, h2.1, h2.2.1, h2.2.2.1, h2.2.2.2.1, h2.2.2.2.2.1, h2.2.2.2.2.2.1,
    h2.2.2.2.2.2.2⟩

theorem spec_C10_undersized_block_witness :
    (mkSkArenaAlloc (fun _ => Cell.uninit) 16 8 0 48).fCursor = 0 ∧
    (mkSkArenaAlloc (fun _ => Cell.uninit) 16 8 0 48).fDtorCursor = 0 ∧
    (mkSkArenaAlloc (fun _ => Cell.uninit) 16 8 0 48).fEnd = 0 ∧
    (mkSkArenaAlloc (fun _ => Cell.uninit) 16 8 0 48).mem = (fun _ => Cell.uninit) ∧
    (∀ fuel, RunDtorsOnBlock (fun _ => Cell.uninit) fuel 0 = some ([], [])) ∧
    48 ≤ (getAP (makeObj (mkSkArenaAlloc (fun _ => Cell.uninit) 16 8 0 48) 5 1 0)).2 ∧
    (getAP (makeObj (mkSkArenaAlloc (fun _ => Cell.uninit) 16 8 0 48) 5 1 0)).1.heapBlocks
      ≠ [] :=
  spec_C10_undersized_block (fun _ => Cell.uninit) 16 8 0 48 5 1 0
    (getAP (makeObj (mkSkArenaAlloc (fun _ => Cell.uninit) 16 8 0 48) 5 1 0)).1
    (getAP (makeObj (mkSkArenaAlloc (fun _ => Cell.uninit) 16 8 0 48) 5 1 0)).2
    (by decide) (by decide) rfl

theorem finalBlockSize_congr {a b : SkArenaAlloc} (h : a.fNextHeapAlloc = b.fNextHeapAlloc)
    (size al : Nat) : finalBlockSize a size al = finalBlockSize b size al := by
  unfold finalBlockSize preRoundSize
  rw [h]

theorem ensureSpace_sameCore {a b : SkArenaAlloc} (h : sameCore a b) (size al : Nat) :
    (ensureSpace a size al = none ∧ ensureSpace b size al = none) ∨
    ∃ a' b', ensureSpace a size al = some a' ∧ ensureSpace b size al = some b' ∧
      sameCore a' b' := by
  obtain ⟨hdc, hc, he, hn, hy, hnb⟩ := h
  cases ha : ensureSpace a size al with
  | none =>
    left
    refine ⟨rfl, ?_⟩
    rw [ensureSpace_none_iff] at ha ⊢
    rwa [← hn]
  | some a' =>
    cases hb : ensureSpace b size al with
    | none =>
      exfalso
      rw [ensureSpace_none_iff] at hb
      rw [← hn] at hb
      rw [← ensureSpace_none_iff a size al] at hb
      rw [ha] at hb
      exact Option.noConfusion hb
    | some b' =>
      right
      obtain ⟨hac, hadc, hae, hanb, _, _, hanh, hayh, _⟩ := ensureSpace_fields ha
      obtain ⟨hbc, hbdc, hbe, hbnb, _, _, hbnh, hbyh, _⟩ := ensureSpace_fields hb
      have hF : finalBlockSize a size al = finalBlockSize b size al :=
        finalBlockSize_congr hn size al
      refine ⟨a', b', rfl, rfl, ?_, ?_, ?_, ?_, ?_, ?_⟩
      · rw [hadc, hbdc, hnb]
      · rw [hac, hbc, hnb]
      · rw [hae, hbe, hnb, hF]
      · rw [hanh, hbnh, hn, hy]
      · rw [hayh, hbyh, hn, hy]
      · rw [hanb, hbnb, hnb, hF]

theorem allocLoop_sameCore :
    ∀ (fuel : Nat) (a b : SkArenaAlloc), sameCore a b → ∀ (sizeIncl al : Nat),
      (allocLoop fuel a sizeIncl al = none ∧ allocLoop fuel b sizeIncl al = none) ∨
      ∃ a' p b', allocLoop fuel a sizeIncl al = some (a', p) ∧
        allocLoop fuel b sizeIncl al = some (b', p) ∧ sameCore a' b' := by
  intro fuel
  induction fuel with
  | zero => intro a b _ _ _; exact Or.inl ⟨rfl, rfl⟩
  | succ n ih =>
    intro a b h sizeIncl al
    obtain ⟨hdc, hc, he, hn, hy, hnb⟩ := h
    simp only [allocLoop]
    rw [← hc, ← hdc, ← he]
    by_cases hc0 : a.fCursor = 0
    · rw [if_pos hc0, if_pos hc0]
      rcases ensureSpace_sameCore ⟨hdc, hc, he, hn, hy, hnb⟩
          (sizeIncl + if a.fCursor ≠ a.fDtorCursor then 13 else 0) al with
        ⟨hna, hnb2⟩ | ⟨a1, b1, hsa, hsb, hcore1⟩
      · rw [hna, hnb2]
        exact Or.inl ⟨rfl, rfl⟩
      · rw [hsa, hsb]
        rcases ih a1 b1 hcore1 sizeIncl al with ⟨h1, h2⟩ | ⟨a', p, b', h1, h2, hcore2⟩
        · exact Or.inl ⟨h1, h2⟩
        · exact Or.inr ⟨a', p, b', h1, h2, hcore2⟩
    · rw [if_neg hc0, if_neg hc0]
      by_cases hfit : ((sizeIncl + if a.fCursor ≠ a.fDtorCursor then 13 else 0 : Nat) : Int) >
          (a.fEnd : Int) -
            (alignUpTo (a.fCursor + if a.fCursor ≠ a.fDtorCursor then 13 else 0) al : Int)
      · rw [if_pos hfit, if_pos hfit]
        rcases ensureSpace_sameCore ⟨hdc, hc, he, hn, hy, hnb⟩
            (sizeIncl + if a.fCursor ≠ a.fDtorCursor then 13 else 0) al with
          ⟨hna, hnb2⟩ | ⟨a1, b1, hsa, hsb, hcore1⟩
        · rw [hna, hnb2]
          exact Or.inl ⟨rfl, rfl⟩
        · rw [hsa, hsb]
          rcases ih a1 b1 hcore1 sizeIncl al with ⟨h1, h2⟩ | ⟨a', p, b', h1, h2, hcore2⟩
          · exact Or.inl ⟨h1, h2⟩
          · exact Or.inr ⟨a', p, b', h1, h2, hcore2⟩
      · rw [if_neg hfit, if_neg hfit]
        by_cases hsk : a.fCursor = a.fDtorCursor
        · simp only [if_neg (not_not_intro hsk)]
          exact Or.inr ⟨a, alignUpTo (a.fCursor + 0) al, b, rfl, rfl,
            ⟨hdc, hc, he, hn, hy, hnb⟩⟩
        · simp only [if_pos hsk]
          refine Or.inr ⟨installFooter (installRawU32 a (a.fCursor - a.fDtorCursor))
              FooterActionV.skipPod 0,
            alignUpTo (a.fCursor + 13) al,
            installFooter (installRawU32 b (a.fCursor - a.fDtorCursor))
              FooterActionV.skipPod 0, rfl, rfl, ?_, ?_, ?_, ?_, ?_, ?_⟩ <;>
            simp only [installFooter, installRawByte, installRawU32, installRawAction] <;>
            omega

theorem makeObj_sameCore {a b : SkArenaAlloc} (h : sameCore a b) (z al i j : Nat) :
    (makeObj a z al i = none ∧ makeObj b z al j = none) ∨
    ∃ a' p b', makeObj a z al i = some (a', p) ∧ makeObj b z al j = some (b', p) ∧
      sameCore a' b' := by
  simp only [makeObj, allocObjectWithFooter]
  rcases allocLoop_sameCore 3 a b h (z + 9) al with ⟨h1, h2⟩ | ⟨a1, p, b1, h1, h2, hcore⟩
  · rw [h1, h2]
    exact Or.inl ⟨rfl, rfl⟩
  · rw [h1, h2]
    obtain ⟨hdc, hc, he, hn, hy, hnb⟩ := hcore
    refine Or.inr ⟨installFooter { a1 with fCursor := p + z }
        (FooterActionV.dtorObj z i) (p - a1.fCursor),
      p,
      installFooter { b1 with fCursor := p + z }
        (FooterActionV.dtorObj z j) (p - b1.fCursor), rfl, rfl,
      ?_, ?_, ?_, ?_, ?_, ?_⟩ <;>
      simp only [installFooter, installRawByte, installRawAction] <;>
      omega

theorem mkSkArenaAlloc_sameCore (m m' : Nat → Cell) (block size fha nb0 : Nat)
    (hs32 : size < 4294967296) :
    sameCore (mkSkArenaAlloc m' block (ToU32 size) (ToU32 fha) nb0)
      (mkSkArenaAlloc m block size fha nb0) := by
  have hu : ToU32 size = size := Nat.mod_eq_of_lt hs32
  have hui : ∀ x : Nat, ToU32 (ToU32 x) = ToU32 x := by
    intro x
    unfold ToU32
    omega
  simp only [mkSkArenaAlloc, hu, hui]
  split_ifs <;>
    exact ⟨rfl, rfl, rfl, rfl, rfl, rfl⟩

/-- C6: for a reset-capable arena, Allocate, then Reset, then Allocate with
identical parameters yields the same starting address as the very first
allocation after construction — reset re-runs the constructor in place from
the original construction parameters, and the allocation path depends only
on the reconstructed cursors, growth counters and heap oracle — and the
object allocated before the Reset has its destructor run exactly once,
during the Reset (the reset teardown log is exactly `[i]`). -/
theorem spec_C6_reset_idempotent (mem0 : Nat → Cell) (block size fha nb0 : Nat)
    (z k i j : Nat) (a1 : SkArenaAlloc) (p1 : Nat)
    (hnb : 1 ≤ nb0) (hend : block + ToU32 size ≤ nb0) (hs32 : size < 4294967296)
    (hk : k ≤ 8)
    (hmo : makeObj (mkSkArenaAllocWithReset mem0 block size fha nb0).arena z (2 ^ k) i
      = some (a1, p1)) :
    ∃ fuel w' frees a2 p2,
      reset fuel { mkSkArenaAllocWithReset mem0 block size fha nb0 with arena := a1 } =
        some (w', [i], frees) ∧
      makeObj w'.arena z (2 ^ k) j = some (a2, p2) ∧ p2 = p1 := by
  have harena : (mkSkArenaAllocWithReset mem0 block size fha nb0).arena =
      mkSkArenaAlloc mem0 block size fha nb0 := rfl
  rw [harena] at hmo
  obtain ⟨t, hI0⟩ := mkSkArenaAlloc_inv (L := nb0) mem0 block size fha nb0 hnb
    (le_refl nb0) hend hs32
  have hcd := mkSkArenaAlloc_cursor_dtor mem0 block size fha nb0
  have hpk1 : 1 ≤ 2 ^ k := Nat.one_le_pow k 2 (by omega)
  have hpk2 : 2 ^ k ≤ 256 := by
    calc 2 ^ k ≤ 2 ^ 8 := Nat.pow_le_pow_right (by omega) hk
    _ = 256 := by norm_num
  obtain ⟨hI1, _, _⟩ := makeObj_inv hI0 (by omega) hpk1 hpk2 hmo
  obtain ⟨fuel, hf⟩ := WalkRT_adequate hI1.walk
  have hwa : ({ mkSkArenaAllocWithReset mem0 block size fha nb0 with
      arena := a1 } : SkArenaAllocWithReset).arena = a1 := rfl
  have hcore := mkSkArenaAlloc_sameCore mem0 a1.mem block size fha nb0 hs32
  rcases makeObj_sameCore hcore z (2 ^ k) j i with ⟨hn1, hn2⟩ | ⟨a2, p2, b2, h1, h2, _⟩
  · rw [hn2] at hmo
    exact Option.noConfusion hmo
  · rw [hmo] at h2
    injection h2 with h2
    rw [Prod.mk.injEq] at h2
    obtain ⟨hb2, hp2⟩ := h2
    refine ⟨fuel, { mkSkArenaAllocWithReset mem0 block size fha nb0 with
        arena := mkSkArenaAlloc a1.mem block (ToU32 size) (ToU32 fha) nb0 },
      a1.heapBlocks.map Prod.fst, a2, p2, ?_, h1, hp2.symm⟩
    have hgoal : reset fuel { mkSkArenaAllocWithReset mem0 block size fha nb0 with
        arena := a1 } =
        match RunDtorsOnBlock a1.mem fuel a1.fDtorCursor with
        | none => none
        | some (ids, frees) =>
          some ({ mkSkArenaAllocWithReset mem0 block size fha nb0 with
                    arena := mkSkArenaAlloc a1.mem block (ToU32 size) (ToU32 fha) nb0 },
                ids, frees) := rfl
    refine hgoal.trans ?_
    rw [hf]

theorem runAllocs_append_pods (pods : List (Nat × Nat)) :
    ∀ (a : SkArenaAlloc) (i : Nat) (rest : List Req), a.fCursor ≠ 0 →
      PodsFit a.fCursor a.fEnd pods →
      runAllocs a (pods.map (fun q => Req.pod q.1 q.2) ++ rest) i =
        runAllocs { a with fCursor := podsAdvance a.fCursor pods } rest i := by
  induction pods with
  | nil =>
    intro a i rest _ _
    simp only [List.map_nil, List.nil_append, podsAdvance]
  | cons q r ih =>
    intro a i rest hc0 hfit
    obtain ⟨s, k⟩ := q
    obtain ⟨hfit1, hfitr⟩ := hfit
    have hfit1' : alignUpTo a.fCursor (2 ^ k) + s ≤ a.fEnd := hfit1
    have hfitr' : PodsFit (alignUpTo a.fCursor (2 ^ k) + s) a.fEnd r := hfitr
    have hal1 : 1 ≤ 2 ^ k := Nat.one_le_pow k 2 (by omega)
    have hb := alignUpTo_bounds a.fCursor (2 ^ k) hal1
    simp only [List.map_cons, List.cons_append, runAllocs]
    have hmp : makePod a s (2 ^ k) =
        some ({ a with fCursor := alignUpTo a.fCursor (2 ^ k) + s },
          alignUpTo a.fCursor (2 ^ k)) := by
      simp only [makePod]
      rw [if_pos ⟨hc0, by omega⟩]
    rw [hmp]
    have hrec := ih { a with fCursor := alignUpTo a.fCursor (2 ^ k) + s } i rest
      (by simp; omega) hfitr'
    simpa [podsAdvance] using hrec

theorem mkSkArenaAlloc_explicit (mem0 : Nat → Cell) (block size fha nb0 : Nat)
    (hb1 : 1 ≤ block) (hs9 : 9 ≤ size) (hs32 : size < 4294967296) :
    mkSkArenaAlloc mem0 block size fha nb0 =
      { mem := writeCell (writeCell mem0 block 8 (Cell.actionC FooterActionV.endChain))
          (block + 8) 1 (Cell.byteC 0),
        fDtorCursor := block + 9, fCursor := block + 9, fEnd := block + size,
        fNextHeapAlloc := first_allocated_block (ToU32 size) (ToU32 fha),
        fYetNextHeapAlloc := first_allocated_block (ToU32 size) (ToU32 fha),
        nextBase := nb0, heapBlocks := [] } := by
  have hu : ToU32 size = size := Nat.mod_eq_of_lt hs32
  simp only [mkSkArenaAlloc, hu]
  rw [if_neg (by omega : ¬size < 9)]
  rw [if_pos (by show block ≠ 0; omega)]
  simp [installFooter, installRawByte, installRawAction]

/-- C2: a run of trivially-destructible allocations immediately followed by
one destructible allocation in the same block writes exactly one skip
record: a `uint32` byte count equal to `fCursor − fDtorCursor` at the time
of the destructible allocation, stored at that cursor `c` and followed by a
`SkipPod` footer; no cell outside the skip record and the object's own
footer is touched; decoding the record during teardown returns
`footerEnd − 13 − skip = block + 9`, the start of the run; and teardown
makes zero destructor calls for the POD run — the whole teardown log is
exactly `[i]`, the one destructible object, with nothing freed. -/
theorem spec_C2_pod_skip (mem0 : Nat → Cell) (block size fha nb0 : Nat)
    (pods : List (Nat × Nat)) (z k i : Nat)
    (hb1 : 1 ≤ block) (hs9 : 9 ≤ size) (hs31 : size < 2 ^ 31)
    (hend : block + size ≤ nb0) (hnb1 : 1 ≤ nb0) (hk : k ≤ 8)
    (hfitp : PodsFit (block + 9) (block + size) pods)
    (hgt : block + 9 < podsAdvance (block + 9) pods)
    (hce : podsAdvance (block + 9) pods ≤ block + size)
    (hfito : alignUpTo (podsAdvance (block + 9) pods + 13) (2 ^ k) + (z + 22) ≤
      block + size) :
    ∃ a', runAllocs (mkSkArenaAlloc mem0 block size fha nb0)
        (pods.map (fun q => Req.pod q.1 q.2) ++ [Req.obj z k]) i = some a' ∧
      a'.mem (podsAdvance (block + 9) pods) =
        Cell.u32C (podsAdvance (block + 9) pods - (block + 9)) ∧
      a'.mem (podsAdvance (block + 9) pods + 4) = Cell.actionC FooterActionV.skipPod ∧
      a'.mem (podsAdvance (block + 9) pods + 12) = Cell.byteC 0 ∧
      (∀ x, x < podsAdvance (block + 9) pods ∨
          (podsAdvance (block + 9) pods + 13 ≤ x ∧
            x < alignUpTo (podsAdvance (block + 9) pods + 13) (2 ^ k) + z) ∨
          alignUpTo (podsAdvance (block + 9) pods + 13) (2 ^ k) + z + 9 ≤ x →
        a'.mem x = writeCell (writeCell mem0 block 8
            (Cell.actionC FooterActionV.endChain)) (block + 8) 1 (Cell.byteC 0) x) ∧
      podsAdvance (block + 9) pods + 13 - 13 -
          (podsAdvance (block + 9) pods - (block + 9)) = block + 9 ∧
      ∃ fuel, RunDtorsOnBlock a'.mem fuel a'.fDtorCursor = some ([i], []) := by
  have h31 : (2 : Nat) ^ 31 = 2147483648 := by norm_num
  have hs32 : size < 4294967296 := by omega
  have hal1 : 1 ≤ 2 ^ k := Nat.one_le_pow k 2 (by omega)
  have hal2 : 2 ^ k ≤ 256 := by
    calc 2 ^ k ≤ 2 ^ 8 := Nat.pow_le_pow_right (by omega) hk
    _ = 256 := by norm_num
  have hmk := mkSkArenaAlloc_explicit mem0 block size fha nb0 hb1 hs9 hs32
  set W2 := writeCell (writeCell mem0 block 8 (Cell.actionC FooterActionV.endChain))
    (block + 8) 1 (Cell.byteC 0) with hW2
  set F := first_allocated_block (ToU32 size) (ToU32 fha) with hF
  set c := podsAdvance (block + 9) pods with hcdef
  set q := alignUpTo (c + 13) (2 ^ k) with hqdef
  have hqb := alignUpTo_bounds (c + 13) (2 ^ k) hal1
  set A1 : SkArenaAlloc :=
    { mem := W2, fDtorCursor := block + 9, fCursor := c, fEnd := block + size,
      fNextHeapAlloc := F, fYetNextHeapAlloc := F,
      nextBase := nb0, heapBlocks := [] } with hA1
  have hA1c : A1.fCursor = c := rfl
  have hA1dc : A1.fDtorCursor = block + 9 := rfl
  have hA1e : A1.fEnd = block + size := rfl
  have hA1m : A1.mem = W2 := rfl
  -- the POD run only advances the cursor
  have hrun1 : runAllocs (mkSkArenaAlloc mem0 block size fha nb0)
      (pods.map (fun r => Req.pod r.1 r.2) ++ [Req.obj z k]) i =
      runAllocs A1 [Req.obj z k] i := by
    rw [hmk]
    exact runAllocs_append_pods pods
      { mem := W2, fDtorCursor := block + 9, fCursor := block + 9,
        fEnd := block + size, fNextHeapAlloc := F, fYetNextHeapAlloc := F,
        nextBase := nb0, heapBlocks := [] } i [Req.obj z k]
      (by show block + 9 ≠ 0; omega) hfitp
  -- the destructible allocation terminates the run with one skip record
  set X2 := installFooter (installRawU32 A1 (c - (block + 9)))
    FooterActionV.skipPod 0 with hX2
  have hX2c : X2.fCursor = c + 13 := by
    simp only [hX2, installFooter, installRawByte, installRawU32, installRawAction, hA1c]
  have hloop : allocLoop 3 A1 (z + 9) (2 ^ k) = some (X2, q) := by
    simp only [allocLoop, hA1c, hA1dc, hA1e]
    rw [if_pos (by omega : c ≠ block + 9)]
    rw [if_neg (by omega : ¬c = 0)]
    rw [if_neg (by push_cast; omega)]
    rw [if_pos (by omega : c ≠ block + 9)]
  set A2 := installFooter { X2 with fCursor := q + z }
    (FooterActionV.dtorObj z i) (q - X2.fCursor) with hA2
  have hmo : makeObj A1 z (2 ^ k) i = some (A2, q) := by
    simp only [makeObj, allocObjectWithFooter]
    rw [hloop]
  have hrun2 : runAllocs A1 [Req.obj z k] i = some A2 := by
    simp only [runAllocs]
    rw [hmo]
  -- the final memory, written out
  have hA2mem : A2.mem = writeCell (writeCell (writeCell (writeCell (writeCell W2
      c 4 (Cell.u32C ((c - (block + 9)) % 4294967296)))
      (c + 4) 8 (Cell.actionC FooterActionV.skipPod))
      (c + 12) 1 (Cell.byteC 0))
      (q + z) 8 (Cell.actionC (FooterActionV.dtorObj z i)))
      (q + z + 8) 1 (Cell.byteC ((q - (c + 13)) % 256)) := by
    simp only [hA2, hX2, installFooter, installRawByte, installRawU32, installRawAction,
      hA1c, hA1m]
  have hmod1 : (c - (block + 9)) % 4294967296 = c - (block + 9) := by omega
  have hmod2 : (q - (c + 13)) % 256 = q - (c + 13) := by omega
  -- the teardown walk
  have hI1 : ArenaInv nb0 A1 [] (some (block + 9)) := by
    refine ⟨?_, ?_, ?_, ?_, ?_, ?_, ?_, ?_, ?_, ?_⟩
    · rw [hA1dc]
      show WalkRT (Region A1) A1.mem (block + 9) [] ([].map Prod.fst) (some (block + 9))
      refine WalkRT.stop (block + 9) (by omega)
        (by show Region A1 (block + 9 - 9); simp only [Region, hA1c]; omega)
        (by show Region A1 (block + 9 - 1); simp only [Region, hA1c]; omega)
        ?_ ?_
      · rw [show block + 9 - 9 = block from by omega, hA1m, hW2,
          writeCell_out _ _ _ _ _ (by omega) (by omega), writeCell_at]
      · rw [show block + 9 - 1 = block + 8 from by omega, hA1m, hW2, writeCell_at]
    · rw [hA1dc, hA1c]; omega
    · rw [hA1c, hA1e]; omega
    · show block + size ≤ nb0; omega
    · show 1 ≤ nb0; omega
    · rw [hA1c]; intro hcon; omega
    · show nb0 ≤ nb0; omega
    · intro r hr; exact absurd hr (List.not_mem_nil r)
    · intro r hr; exact absurd hr (List.not_mem_nil r)
    · exact List.Pairwise.nil
  obtain ⟨hI2, _, _⟩ := makeObj_inv hI1 (by rw [hA1c, hA1dc]; omega) hal1 hal2 hmo
  obtain ⟨fuel, hfuel⟩ := WalkRT_adequate hI2.walk
  have hhb2 : A2.heapBlocks = [] := rfl
  rw [hhb2] at hfuel
  refine ⟨A2, by rw [hrun1]; exact hrun2, ?_, ?_, ?_, ?_, by omega, ⟨fuel, by simpa using hfuel⟩⟩
  · rw [hA2mem, hmod1,
      writeCell_out _ _ _ _ _ (by omega) (by omega),
      writeCell_out _ _ _ _ _ (by omega) (by omega),
      writeCell_out _ _ _ _ _ (by omega) (by omega),
      writeCell_out _ _ _ _ _ (by omega) (by omega), writeCell_at]
  · rw [hA2mem,
      writeCell_out _ _ _ _ _ (by omega) (by omega),
      writeCell_out _ _ _ _ _ (by omega) (by omega),
      writeCell_out _ _ _ _ _ (by omega) (by omega), writeCell_at]
  · rw [hA2mem,
      writeCell_out _ _ _ _ _ (by omega) (by omega),
      writeCell_out _ _ _ _ _ (by omega) (by omega), writeCell_at]
  · intro x hx
    rw [hA2mem,
      writeCell_out _ _ _ _ _ (by omega) (by omega),
      writeCell_out _ _ _ _ _ (by omega) (by omega),
      writeCell_out _ _ _ _ _ (by omega) (by omega),
      writeCell_out _ _ _ _ _ (by omega) (by omega),
      writeCell_out _ _ _ _ _ (by omega) (by omega)]

theorem spec_C6_reset_idempotent_witness :
    ∃ fuel w' frees a2 p2,
      reset fuel { mkSkArenaAllocWithReset (fun _ => Cell.uninit) 16 64 0 96 with
          arena := (getAP (makeObj
            (mkSkArenaAllocWithReset (fun _ => Cell.uninit) 16 64 0 96).arena
            7 (2 ^ 0) 0)).1 } =
        some (w', [0], frees) ∧
      makeObj w'.arena 7 (2 ^ 0) 5 = some (a2, p2) ∧
      p2 = (getAP (makeObj
        (mkSkArenaAllocWithReset (fun _ => Cell.uninit) 16 64 0 96).arena
        7 (2 ^ 0) 0)).2 :=
  spec_C6_reset_idempotent (fun _ => Cell.uninit) 16 64 0 96 7 0 0 5
    (getAP (makeObj (mkSkArenaAllocWithReset (fun _ => Cell.uninit) 16 64 0 96).arena
      7 (2 ^ 0) 0)).1
    (getAP (makeObj (mkSkArenaAllocWithReset (fun _ => Cell.uninit) 16 64 0 96).arena
      7 (2 ^ 0) 0)).2
    (by decide) (by decide) (by decide) (by decide) rfl

theorem spec_C2_pod_skip_witness :
    ∃ a', runAllocs (mkSkArenaAlloc (fun _ => Cell.uninit) 16 64 0 96)
        ([((3 : Nat), (0 : Nat)), (5, 0)].map (fun q => Req.pod q.1 q.2) ++
          [Req.obj 7 0]) 0 = some a' ∧
      a'.mem (podsAdvance (16 + 9) [(3, 0), (5, 0)]) =
        Cell.u32C (podsAdvance (16 + 9) [(3, 0), (5, 0)] - (16 + 9)) ∧
      a'.mem (podsAdvance (16 + 9) [(3, 0), (5, 0)] + 4) =
        Cell.actionC FooterActionV.skipPod ∧
      a'.mem (podsAdvance (16 + 9) [(3, 0), (5, 0)] + 12) = Cell.byteC 0 ∧
      (∀ x, x < podsAdvance (16 + 9) [(3, 0), (5, 0)] ∨
          (podsAdvance (16 + 9) [(3, 0), (5, 0)] + 13 ≤ x ∧
            x < alignUpTo (podsAdvance (16 + 9) [(3, 0), (5, 0)] + 13) (2 ^ 0) + 7) ∨
          alignUpTo (podsAdvance (16 + 9) [(3, 0), (5, 0)] + 13) (2 ^ 0) + 7 + 9 ≤ x →
        a'.mem x = writeCell (writeCell (fun _ => Cell.uninit) 16 8
            (Cell.actionC FooterActionV.endChain)) (16 + 8) 1 (Cell.byteC 0) x) ∧
      podsAdvance (16 + 9) [(3, 0), (5, 0)] + 13 - 13 -
          (podsAdvance (16 + 9) [(3, 0), (5, 0)] - (16 + 9)) = 16 + 9 ∧
      ∃ fuel, RunDtorsOnBlock a'.mem fuel a'.fDtorCursor = some ([0], []) :=
  spec_C2_pod_skip (fun _ => Cell.uninit) 16 64 0 96 [(3, 0), (5, 0)] 7 0 0
    (by decide) (by decide) (by decide) (by decide) (by decide) (by decide)
    (by decide) (by decide) (by decide) (by decide)
